import Mathlib

/-!
# Kinetic sculpture: disc speed controller

A shallow embedding of `Motor.h` and `Disc.h` (Arduino C++).

Conventions of the embedding

* `byte` and `unsigned long` values are natural numbers; `unsigned long` arithmetic is
  reduced modulo `2 ^ 32` where the source subtracts timestamps.
* `float` and `double` values are rationals.  The `float` product that gives the target of
  `updateSpeed` is rounded to binary32 (`roundToFloat`), since the target is its integer
  part; the other floating operations (step amounts, stored percentage, PWM value) are
  exact: their rounding changes low-order bits of a stored value and no comparison.  The
  conversion of a floating value to an integer type truncates toward zero.
* Hardware outputs (`digitalWrite`, `analogWrite`) are recorded in the motor state as the
  level or value last written; `digitalRead` of the direction pin reads that level back.
* `micros()` is an argument of the interrupt service routine.
* A division by zero is undefined behaviour: the function that executes it has no result
  (`none`).
-/

set_option linter.unusedVariables false

namespace KineticSculpture

/-! ## Platform -/

/-- Number of values of an `unsigned long` (32 bits on the AVR boards). -/
def ulongModulus : Nat := 2 ^ 32

/-- Conversion of a floating value to `long`: C++ discards the fractional part
(truncation toward zero). -/
def truncToLong (x : ℚ) : Int :=
  if 0 ≤ x then ⌊x⌋ else ⌈x⌉

/-- Rounding to the nearest whole number, ties to the even one. -/
def roundHalfEven (y : ℚ) : Int :=
  if y - ⌊y⌋ < 1 / 2 then ⌊y⌋
  else if 1 / 2 < y - ⌊y⌋ then ⌊y⌋ + 1
  else if ⌊y⌋ % 2 = 0 then ⌊y⌋
  else ⌊y⌋ + 1

/-- Exponent of the spacing of the `float` values (IEEE 754 binary32, 24 significant bits)
around `x`: values of magnitude in `[2 ^ e, 2 ^ (e + 1))` are `2 ^ (e - 23)` apart, and
below `2 ^ (-126)` the spacing stays `2 ^ (-149)`. -/
def floatSpacingExponent (x : ℚ) : Int :=
  max (Int.log 2 |x|) (-126) - 23

/-- Result of a `float` operation whose exact value is `x`: the nearest binary32 value,
ties to even.  Overflow to infinity (magnitudes from `2 ^ 128`) is not modelled: the only
use is on a product of magnitude at most 37500. -/
def roundToFloat (x : ℚ) : ℚ :=
  (roundHalfEven (x / 2 ^ floatSpacingExponent x) : ℚ) * 2 ^ floatSpacingExponent x

/-- Modelled from the spec: the Arduino core function `map` is not part of the repository
sources; it is the integer formula
`(x - in_min) * (out_max - out_min) / (in_max - in_min) + out_min` on `long` operands,
with C++ integer division (truncation toward zero). -/
def map (x in_min in_max out_min out_max : Int) : Int :=
  ((x - in_min) * (out_max - out_min)).tdiv (in_max - in_min) + out_min

/-! ## Motor.h -/

/-- Data members of `class Motor`, together with the levels last written to its two
output pins (`directionLevel`, `true` for `HIGH`, and `pwmDuty`). -/
structure Motor where
  percentage : ℚ
  minUsablePercent : Nat
  maxUsablePercent : Nat
  pwmPin : Nat
  directionPin : Nat
  tachometerPin : Nat
  rotationsPerMinute : Nat
  newTime : Nat
  timeOfLastMeasurement : Nat
  microsecondsBetweenLines : Nat
  directionLevel : Bool
  pwmDuty : Int
  deriving DecidableEq

namespace Motor

/-- The constant `FULL_OFF`: the signal is inverted. -/
def FULL_OFF : Nat := 255

/-- The constant `FULL_ON`: the signal is inverted. -/
def FULL_ON : Nat := 0

/-- Body of `setupMotor`: the PWM pin is written `FULL_OFF`. -/
def setupMotor (m : Motor) : Motor :=
  { m with pwmDuty := FULL_OFF }

/-- Constructor `Motor(direction, pwm, tachPin)`.  The members the constructor does not
assign (`rotationsPerMinute` and the three timestamps) are zero: every `Motor` of the
repository is a global object (`Globals.h`), hence zero-initialised before construction.
The direction pin has not been written yet and reads `LOW`.  The timer prescaler
register set by the constructor is not modelled. -/
def new (direction pwm tachPin : Nat) : Motor :=
  setupMotor
    { percentage := 0
      minUsablePercent := 40
      maxUsablePercent := 100
      pwmPin := pwm
      directionPin := direction
      tachometerPin := tachPin
      rotationsPerMinute := 0
      newTime := 0
      timeOfLastMeasurement := 0
      microsecondsBetweenLines := 0
      directionLevel := false
      pwmDuty := 0 }

/-- Source function `turnPercentIntoPwm`: the percentage is first mapped into the usable
range (the `double` argument is converted to `long` for `map`), then turned into the
inverted PWM value `255 - 255 * abs(percent) / 100`, computed in `double`. -/
def turnPercentIntoPwm (m : Motor) (percent : ℚ) : ℚ :=
  let percent : ℚ :=
    if percent > 0 then
      ((map (truncToLong percent) 0 100 m.minUsablePercent m.maxUsablePercent : Int) : ℚ)
    else if percent < 0 then
      ((map (truncToLong percent) 0 (-100) m.minUsablePercent m.maxUsablePercent : Int) : ℚ)
    else percent
  255 - (255 * |percent| / 100)

/-- Source function `runMotor`: sets the direction pin from the sign of `percent`, writes
the PWM value (converted to the `int` argument of `analogWrite`) and stores `percent`. -/
def runMotor (m : Motor) (percent : ℚ) : Motor :=
  { m with
    directionLevel := if percent < 0 then false else true
    pwmDuty := truncToLong (turnPercentIntoPwm m percent)
    percentage := percent }

/-- Source function `turnOffMotor`. -/
def turnOffMotor (m : Motor) : Motor :=
  { m with pwmDuty := FULL_OFF }

/-- Source function `turnOnMotor`. -/
def turnOnMotor (m : Motor) : Motor :=
  { m with pwmDuty := FULL_ON }

/-- Source function `increasePercentage`. -/
def increasePercentage (m : Motor) (step : ℚ) : Motor :=
  if m.percentage < 100 then
    runMotor { m with percentage := m.percentage + step } (m.percentage + step)
  else m

/-- Source function `decreasePercentage`. -/
def decreasePercentage (m : Motor) (step : ℚ) : Motor :=
  if m.percentage > -100 then
    runMotor { m with percentage := m.percentage - step } (m.percentage - step)
  else m

/-- Source function `interruptServiceRoutine`; `now` is the value returned by `micros()`.
The subtraction is `unsigned long` subtraction (modulo `2 ^ 32`).  When the interval is
zero the routine executes `24000000 / 0`, which is undefined: the call has no result
(`none`). -/
def interruptServiceRoutine (m : Motor) (now : Nat) : Option Motor :=
  let newTime := now % ulongModulus
  let microsecondsBetweenLines :=
    (newTime + ulongModulus - m.timeOfLastMeasurement % ulongModulus) % ulongModulus
  if microsecondsBetweenLines = 0 then none
  else
    some
      { m with
        newTime := newTime
        microsecondsBetweenLines := microsecondsBetweenLines
        timeOfLastMeasurement := newTime
        rotationsPerMinute := 24000000 / microsecondsBetweenLines }

/-- Source function `getRotationsPerMinute`. -/
def getRotationsPerMinute (m : Motor) : Nat :=
  m.rotationsPerMinute

/-- Source function `getTachAttachedPin`. -/
def getTachAttachedPin (m : Motor) : Nat :=
  m.tachometerPin

/-- Source function `getPercentage`. -/
def getPercentage (m : Motor) : ℚ :=
  m.percentage

/-- Source function `getDirection`: `digitalRead` of the direction pin, 1 for clockwise
(`HIGH`), 0 for counterclockwise (`LOW`). -/
def getDirection (m : Motor) : Nat :=
  if m.directionLevel then 1 else 0

/-- Source function `setMinimumUsablePercent`; the result pairs the returned `bool` with
the motor after the call. -/
def setMinimumUsablePercent (m : Motor) (percent : Nat) : Bool × Motor :=
  if percent < 0 ∨ percent > 100 then (false, m)
  else (true, { m with minUsablePercent := percent })

/-- Source function `getMinUsablePercent`. -/
def getMinUsablePercent (m : Motor) : Nat :=
  m.minUsablePercent

/-- Source function `getMaxUsablePercent`. -/
def getMaxUsablePercent (m : Motor) : Nat :=
  m.maxUsablePercent

/-- Source function `setMaxUsablePercent`; the result pairs the returned `bool` with the
motor after the call. -/
def setMaxUsablePercent (m : Motor) (percent : Nat) : Bool × Motor :=
  if percent < m.minUsablePercent then (false, m)
  else if percent < 0 ∨ percent > 100 then (false, m)
  else (true, { m with maxUsablePercent := percent })

end Motor

/-! ## Disc.h -/

/-- The constant `MAX_RPM`. -/
def MAX_RPM : Int := 30

/-- Data of `class Disc`: the attached motor. -/
structure Disc where
  motor : Motor
  deriving DecidableEq

namespace Disc

/-- Constructor `Disc(attachedMotor)`. -/
def new (attachedMotor : Motor) : Disc :=
  { motor := attachedMotor.setupMotor }

/-- Source function `Disc::setMinMotorPercentage`: forwards to the motor. -/
def setMinMotorPercentage (d : Disc) (percent : Nat) : Bool × Disc :=
  ((d.motor.setMinimumUsablePercent percent).1,
   { d with motor := (d.motor.setMinimumUsablePercent percent).2 })

/-- Source function `Disc::setMaxMotorPercentage`: forwards to the motor. -/
def setMaxMotorPercentage (d : Disc) (percent : Nat) : Bool × Disc :=
  ((d.motor.setMaxUsablePercent percent).1,
   { d with motor := (d.motor.setMaxUsablePercent percent).2 })

/-- Source function `Disc::runDisc`: forwards to `runMotor`. -/
def runDisc (d : Disc) (percent : ℚ) : Disc :=
  { d with motor := d.motor.runMotor percent }

/-- Source function `Disc::setISR`: forwards to the interrupt service routine. -/
def setISR (d : Disc) (now : Nat) : Option Disc :=
  (d.motor.interruptServiceRoutine now).map (fun m => { d with motor := m })

/-- Source function `Disc::getRotationsPerMinute`. -/
def getRotationsPerMinute (d : Disc) : Nat :=
  d.motor.getRotationsPerMinute

/-- A call of `updateSpeed` to one of the two stepping functions of the motor, with the
argument passed. -/
inductive ActuatorCall where
  | increasePercentage (step : ℚ)
  | decreasePercentage (step : ℚ)
  deriving DecidableEq

/-- State of an execution of `updateSpeed`: the attached motor, the local variables
`tachRpm` and `motorPercentage`, and the calls to `increasePercentage` and
`decreasePercentage` issued so far, oldest first. -/
structure SpeedLoop where
  motor : Motor
  tachRpm : ℚ
  motorPercentage : ℚ
  calls : List ActuatorCall
  deriving DecidableEq

/-- First statement of `updateSpeed`: the requested rate is limited to `MAX_RPM` in both
directions. -/
def clampRpm (desiredRpm : ℚ) : ℚ :=
  if desiredRpm > 30 then MAX_RPM
  else if desiredRpm < -30 then -1 * MAX_RPM
  else desiredRpm

/-- Local `long desiredTachRpm = desiredDiscRpm * 1250` of `updateSpeed`: the product is
computed in `float`, hence rounded to binary32, and is then converted to `long`. -/
def desiredTachRpm (desiredRpm : ℚ) : Int :=
  truncToLong (roundToFloat (clampRpm desiredRpm * 1250))

/-- Local `long desireMin = desiredTachRpm - 1000` of `updateSpeed`. -/
def desireMin (desiredRpm : ℚ) : Int :=
  desiredTachRpm desiredRpm - 1000

/-- Local `long desireMax = desiredTachRpm + 1000` of `updateSpeed`. -/
def desireMax (desiredRpm : ℚ) : Int :=
  desiredTachRpm desiredRpm + 1000

/-- Condition of the `while` loop of `updateSpeed`:
`tachRpm > desireMax or tachRpm < desireMin`. -/
def outsideBand (desiredRpm : ℚ) (tachRpm : ℚ) : Prop :=
  tachRpm > (desireMax desiredRpm : ℚ) ∨ tachRpm < (desireMin desiredRpm : ℚ)

instance (desiredRpm tachRpm : ℚ) : Decidable (outsideBand desiredRpm tachRpm) := by
  unfold outsideBand
  infer_instance

/-- The signed reading of one loop iteration: the tachometer value, negated when the
direction pin reads 0. -/
def signedReading (m : Motor) (reading : Nat) : ℚ :=
  if m.getDirection = 0 then -(reading : ℚ) else (reading : ℚ)

/-- Body of the `while` loop of `updateSpeed`; `reading` is the value returned by
`motor->getRotationsPerMinute()` in this iteration (the rate is updated asynchronously by
the interrupt service routine, so it is an input of the iteration). -/
def updateSpeedBody (desiredRpm : ℚ) (reading : Nat) (s : SpeedLoop) : SpeedLoop :=
  let motorPercentage := s.motor.getPercentage
  let tachRpm := signedReading s.motor reading
  if (desiredTachRpm desiredRpm : ℚ) > tachRpm then
    { motor := s.motor.increasePercentage (((desiredTachRpm desiredRpm : ℚ) - tachRpm) / 10000)
      tachRpm := tachRpm
      motorPercentage := motorPercentage
      calls := s.calls ++
        [ActuatorCall.increasePercentage (((desiredTachRpm desiredRpm : ℚ) - tachRpm) / 10000)] }
  else if (desiredTachRpm desiredRpm : ℚ) < tachRpm then
    { motor := s.motor.decreasePercentage ((tachRpm - (desiredTachRpm desiredRpm : ℚ)) / 10000)
      tachRpm := tachRpm
      motorPercentage := motorPercentage
      calls := s.calls ++
        [ActuatorCall.decreasePercentage ((tachRpm - (desiredTachRpm desiredRpm : ℚ)) / 10000)] }
  else
    { motor := s.motor
      tachRpm := tachRpm
      motorPercentage := motorPercentage
      calls := s.calls }

/-- The `while` loop of `updateSpeed`, run for at most `fuel` iterations: the state in
which the loop is left, or the state after `fuel` iterations.  `readings k` is the value
returned by the `k`-th call of `motor->getRotationsPerMinute()` (call 0 precedes the
loop). -/
def updateSpeedRun (desiredRpm : ℚ) (readings : Nat → Nat) : Nat → Nat → SpeedLoop → SpeedLoop
  | 0, _, s => s
  | fuel + 1, k, s =>
    if outsideBand desiredRpm s.tachRpm then
      updateSpeedRun desiredRpm readings fuel (k + 1) (updateSpeedBody desiredRpm (readings k) s)
    else s

/-- State of `updateSpeed` on entry to the loop: the first reading is taken as it is. -/
def updateSpeedEntry (d : Disc) (readings : Nat → Nat) : SpeedLoop :=
  { motor := d.motor
    tachRpm := (readings 0 : ℚ)
    motorPercentage := d.motor.getPercentage
    calls := [] }

/-- Source function `Disc::updateSpeed`, with `fuel` bounding the number of loop
iterations: `some s` when the loop is left within `fuel` iterations, in state `s`;
`none` when it is still running after `fuel` iterations. -/
def updateSpeed (d : Disc) (desiredRpm : ℚ) (readings : Nat → Nat) (fuel : Nat) :
    Option SpeedLoop :=
  let s := updateSpeedRun desiredRpm readings fuel 1 (updateSpeedEntry d readings)
  if outsideBand desiredRpm s.tachRpm then none else some s

end Disc

/-! ## Bound setters -/

/-- General behaviour of the minimum setter: the only test is `percent ≤ 100`. -/
theorem setMinimumUsablePercent_spec (m : Motor) (p : Nat) :
    (p ≤ 100 → m.setMinimumUsablePercent p = (true, { m with minUsablePercent := p })) ∧
    (100 < p → m.setMinimumUsablePercent p = (false, m)) := by
  constructor
  · intro h
    simp [Motor.setMinimumUsablePercent, h]
  · intro h
    simp [Motor.setMinimumUsablePercent, h]

/-- C1 (code evaluated at the failing input): after the maximum has been lowered to 50 on
a new motor (minimum 40), asking for the minimum 60, which exceeds the maximum, is accepted:
the call returns `true` and stores 60, so that the minimum is above the maximum. -/
theorem C1_setMin_accepts_above_max :
    ((Motor.new 15 11 19).setMaxUsablePercent 50).2.minUsablePercent = 40 ∧
    ((Motor.new 15 11 19).setMaxUsablePercent 50).2.maxUsablePercent = 50 ∧
    ((Disc.new ((Motor.new 15 11 19).setMaxUsablePercent 50).2).setMinMotorPercentage 60).1
      = true ∧
    ((Disc.new ((Motor.new 15 11 19).setMaxUsablePercent 50).2).setMinMotorPercentage
      60).2.motor.minUsablePercent = 60 ∧
    ((Disc.new ((Motor.new 15 11 19).setMaxUsablePercent 50).2).setMinMotorPercentage
      60).2.motor.maxUsablePercent = 50 := by
  simp [Motor.new, Motor.setupMotor, Motor.setMaxUsablePercent, Disc.new,
    Disc.setMinMotorPercentage, Motor.setMinimumUsablePercent]

/-- C2: the maximum setter returns `true` exactly when `minUsablePercent ≤ p ≤ 100`; on
success the maximum becomes `p` and nothing else changes, on failure the motor is
unchanged; with the default minimum 40, the request 30 fails and the request 50
succeeds. -/
theorem C2_setMax_contract :
    (∀ (d : Disc) (p : Nat),
      ((d.setMaxMotorPercentage p).1 = true ↔ d.motor.minUsablePercent ≤ p ∧ p ≤ 100) ∧
      ((d.setMaxMotorPercentage p).1 = (d.motor.setMaxUsablePercent p).1) ∧
      ((d.setMaxMotorPercentage p).2.motor = (d.motor.setMaxUsablePercent p).2) ∧
      ((d.setMaxMotorPercentage p).1 = true →
        (d.setMaxMotorPercentage p).2.motor = { d.motor with maxUsablePercent := p } ∧
        (d.setMaxMotorPercentage p).2.motor.maxUsablePercent = p ∧
        (d.setMaxMotorPercentage p).2.motor.minUsablePercent = d.motor.minUsablePercent) ∧
      ((d.setMaxMotorPercentage p).1 = false → (d.setMaxMotorPercentage p).2 = d)) ∧
    (Motor.new 15 11 19).minUsablePercent = 40 ∧
    ((Disc.new (Motor.new 15 11 19)).setMaxMotorPercentage 30).1 = false ∧
    ((Disc.new (Motor.new 15 11 19)).setMaxMotorPercentage 50).1 = true := by
  refine ⟨?_, ?_, ?_, ?_⟩
  · intro d p
    simp only [Disc.setMaxMotorPercentage, Motor.setMaxUsablePercent]
    by_cases h1 : p < d.motor.minUsablePercent
    · simp [h1]
    · by_cases h2 : p > 100
      · simp [h1, h2]
      · simp [h1, h2]
        omega
  · simp [Motor.new, Motor.setupMotor]
  · simp [Motor.new, Motor.setupMotor, Disc.new, Disc.setMaxMotorPercentage,
      Motor.setMaxUsablePercent]
  · simp [Motor.new, Motor.setupMotor, Disc.new, Disc.setMaxMotorPercentage,
      Motor.setMaxUsablePercent]


/-! ## Percentage to PWM -/

/-- On a non-negative argument `map x 0 100 lo hi` is `x * (hi - lo) / 100 + lo`. -/
theorem map_forward (x : Int) (lo hi : Nat) (hx : 0 ≤ x) (h : lo ≤ hi) :
    map x 0 100 lo hi = x * ((hi : Int) - lo) / 100 + lo := by
  have hc : (0 : Int) ≤ (hi : Int) - lo := by omega
  unfold map
  rw [sub_zero, sub_zero, Int.tdiv_eq_ediv (mul_nonneg hx hc) (by norm_num)]

/-- On a non-positive argument `map x 0 (-100) lo hi` is `(-x) * (hi - lo) / 100 + lo`. -/
theorem map_reverse (x : Int) (lo hi : Nat) (hx : x ≤ 0) (h : lo ≤ hi) :
    map x 0 (-100) lo hi = (-x) * ((hi : Int) - lo) / 100 + lo := by
  have hc : (0 : Int) ≤ (hi : Int) - lo := by omega
  have hx2 : (0 : Int) ≤ -x := by omega
  unfold map
  rw [sub_zero, sub_zero, Int.tdiv_neg]
  have e : x * ((hi : Int) - lo) = -((-x) * ((hi : Int) - lo)) := by ring
  rw [e, Int.neg_tdiv, neg_neg, Int.tdiv_eq_ediv (mul_nonneg hx2 hc) (by norm_num)]

/-- The usable percentage selected by `turnPercentIntoPwm` for a nonzero command depends
only on the magnitude of the command. -/
theorem turnPercentIntoPwm_of_ne_zero (m : Motor) (p : ℚ) (hp : p ≠ 0)
    (h : m.minUsablePercent ≤ m.maxUsablePercent) :
    m.turnPercentIntoPwm p =
      255 - 255 * ((⌊|p|⌋ * ((m.maxUsablePercent : Int) - m.minUsablePercent) / 100
        + m.minUsablePercent : Int) : ℚ) / 100 := by
  have hc : (0 : Int) ≤ (m.maxUsablePercent : Int) - m.minUsablePercent := by omega
  rcases lt_or_gt_of_ne hp with hneg | hpos
  · have hfl : (0 : Int) ≤ ⌊-p⌋ := Int.floor_nonneg.mpr (by linarith)
    have ht : truncToLong p = -⌊-p⌋ := by
      unfold truncToLong
      rw [if_neg (not_le.mpr hneg), Int.floor_neg, neg_neg]
    have hu : (0 : Int) ≤ ⌊-p⌋ * ((m.maxUsablePercent : Int) - m.minUsablePercent) / 100
        + m.minUsablePercent :=
      add_nonneg (Int.ediv_nonneg (mul_nonneg hfl hc) (by norm_num)) (by omega)
    unfold Motor.turnPercentIntoPwm
    simp only [gt_iff_lt, if_neg (not_lt.mpr hneg.le), if_pos hneg]
    rw [ht, map_reverse _ _ _ (by omega) h, neg_neg, abs_of_neg hneg,
      abs_of_nonneg (by exact_mod_cast hu)]
  · have hfl : (0 : Int) ≤ ⌊p⌋ := Int.floor_nonneg.mpr hpos.le
    have ht : truncToLong p = ⌊p⌋ := by
      unfold truncToLong
      rw [if_pos hpos.le]
    have hu : (0 : Int) ≤ ⌊p⌋ * ((m.maxUsablePercent : Int) - m.minUsablePercent) / 100
        + m.minUsablePercent :=
      add_nonneg (Int.ediv_nonneg (mul_nonneg hfl hc) (by norm_num)) (by omega)
    unfold Motor.turnPercentIntoPwm
    simp only [gt_iff_lt, if_pos hpos]
    rw [ht, map_forward _ _ _ hfl h, abs_of_pos hpos,
      abs_of_nonneg (by exact_mod_cast hu)]

/-- The PWM value of the command 0 is `FULL_OFF`. -/
theorem turnPercentIntoPwm_zero (m : Motor) : m.turnPercentIntoPwm 0 = 255 := by
  simp [Motor.turnPercentIntoPwm]

/-- No command is turned into a PWM value above `FULL_OFF`. -/
theorem turnPercentIntoPwm_le (m : Motor) (p : ℚ) : m.turnPercentIntoPwm p ≤ 255 := by
  unfold Motor.turnPercentIntoPwm
  simp only
  have : ∀ x : ℚ, 255 - 255 * |x| / 100 ≤ 255 := by
    intro x
    have := abs_nonneg x
    linarith
  exact this _

/-- C3: with `0 ≤ minUsablePercent ≤ maxUsablePercent ≤ 100`, for commands `p`, `q` in
`[-100, 100]` with `|p| ≤ |q|` the (inverted) PWM value of `p` is at least that of `q`,
so the physical power does not decrease with the magnitude of the command; and the
command 0 gives 255 (`FULL_OFF`). -/
theorem C3_pwm_antitone_in_magnitude (m : Motor) (p q : ℚ)
    (h : m.minUsablePercent ≤ m.maxUsablePercent)
    (hmax : m.maxUsablePercent ≤ 100)
    (hp : |p| ≤ 100) (hq : |q| ≤ 100) (hpq : |p| ≤ |q|) :
    m.turnPercentIntoPwm p ≥ m.turnPercentIntoPwm q ∧
    m.turnPercentIntoPwm 0 = (Motor.FULL_OFF : ℚ) ∧ Motor.FULL_OFF = 255 := by
  refine ⟨?_, by simp [turnPercentIntoPwm_zero, Motor.FULL_OFF], rfl⟩
  by_cases hp0 : p = 0
  · rw [hp0, turnPercentIntoPwm_zero]
    exact turnPercentIntoPwm_le m q
  · have hq0 : q ≠ 0 := by
      intro hq0
      rw [hq0, abs_zero] at hpq
      exact hp0 (abs_nonpos_iff.mp hpq)
    have hc : (0 : Int) ≤ (m.maxUsablePercent : Int) - m.minUsablePercent := by omega
    have hfl : ⌊|p|⌋ ≤ ⌊|q|⌋ := Int.floor_mono hpq
    have hu : ⌊|p|⌋ * ((m.maxUsablePercent : Int) - m.minUsablePercent) / 100
          + m.minUsablePercent
        ≤ ⌊|q|⌋ * ((m.maxUsablePercent : Int) - m.minUsablePercent) / 100
          + m.minUsablePercent :=
      add_le_add_right
        (Int.ediv_le_ediv (by norm_num) (mul_le_mul_of_nonneg_right hfl hc)) _
    have huq : ((⌊|p|⌋ * ((m.maxUsablePercent : Int) - m.minUsablePercent) / 100
          + m.minUsablePercent : Int) : ℚ)
        ≤ ((⌊|q|⌋ * ((m.maxUsablePercent : Int) - m.minUsablePercent) / 100
          + m.minUsablePercent : Int) : ℚ) := by
      exact_mod_cast hu
    rw [turnPercentIntoPwm_of_ne_zero m p hp0 h, turnPercentIntoPwm_of_ne_zero m q hq0 h]
    linarith

/-- Witness of C3 on a new motor (usable range 40 to 100), commands 50 and -100. -/
theorem C3_pwm_antitone_in_magnitude_witness :
    (Motor.new 15 11 19).minUsablePercent ≤ (Motor.new 15 11 19).maxUsablePercent ∧
    (Motor.new 15 11 19).maxUsablePercent ≤ 100 ∧
    |(50 : ℚ)| ≤ 100 ∧ |(-100 : ℚ)| ≤ 100 ∧ |(50 : ℚ)| ≤ |(-100 : ℚ)| ∧
    ((Motor.new 15 11 19).turnPercentIntoPwm 50 ≥ (Motor.new 15 11 19).turnPercentIntoPwm (-100) ∧
      (Motor.new 15 11 19).turnPercentIntoPwm 0 = (Motor.FULL_OFF : ℚ) ∧
      Motor.FULL_OFF = 255) :=
  ⟨by decide, by decide, by norm_num, by norm_num, by norm_num,
    C3_pwm_antitone_in_magnitude (Motor.new 15 11 19) 50 (-100) (by decide) (by decide)
      (by norm_num) (by norm_num) (by norm_num)⟩

/-! ## Tachometer -/

/-- Result of the interrupt service routine when the interval since the previous edge is
`d` and `d` is not zero. -/
theorem interruptServiceRoutine_of_interval (m : Motor) (now d : Nat)
    (hd : (now % ulongModulus + ulongModulus - m.timeOfLastMeasurement % ulongModulus)
      % ulongModulus = d)
    (hd0 : d ≠ 0) :
    m.interruptServiceRoutine now =
      some { m with
        newTime := now % ulongModulus
        microsecondsBetweenLines := d
        timeOfLastMeasurement := now % ulongModulus
        rotationsPerMinute := 24000000 / d } := by
  unfold Motor.interruptServiceRoutine
  simp only [hd, if_neg hd0]

/-- The interrupt service routine has no result exactly when the interval since the
previous edge is zero. -/
theorem interruptServiceRoutine_eq_none_iff (m : Motor) (now : Nat) :
    m.interruptServiceRoutine now = none ↔
      (now % ulongModulus + ulongModulus - m.timeOfLastMeasurement % ulongModulus)
        % ulongModulus = 0 := by
  unfold Motor.interruptServiceRoutine
  simp only
  split <;> simp_all

/-- Round trip of the rate: when the first of three edges at `t0`, `t0 + D`, `t0 + 2 * D`
(modulo `2 ^ 32`, `0 < D < 2 ^ 32`) does not find a zero interval, all three calls have a
result and the rate after the second and after the third is `24000000 / D`. -/
theorem interruptServiceRoutine_round_trip (m : Motor) (t0 D : Nat) (hD : 0 < D)
    (hD32 : D < 4294967296)
    (hfirst : t0 % 4294967296 ≠ m.timeOfLastMeasurement % 4294967296) :
    ∃ m1 m2 m3 : Motor,
      m.interruptServiceRoutine t0 = some m1 ∧
      m1.interruptServiceRoutine ((t0 + D) % 2 ^ 32) = some m2 ∧
      m2.getRotationsPerMinute = 24000000 / D ∧
      m2.interruptServiceRoutine ((t0 + 2 * D) % 2 ^ 32) = some m3 ∧
      m3.getRotationsPerMinute = 24000000 / D := by
  have hM : ulongModulus = 4294967296 := by norm_num [ulongModulus]
  have hP : (2 : Nat) ^ 32 = 4294967296 := by norm_num
  have hD0 : D ≠ 0 := by omega
  obtain ⟨m1, h1, hl1⟩ : ∃ m1 : Motor, m.interruptServiceRoutine t0 = some m1 ∧
      m1.timeOfLastMeasurement = t0 % ulongModulus :=
    ⟨_, interruptServiceRoutine_of_interval m t0 _ rfl (by rw [hM]; omega), rfl⟩
  have h2 := interruptServiceRoutine_of_interval m1 ((t0 + D) % 2 ^ 32) D
    (by rw [hl1, hM, hP]; omega) hD0
  obtain ⟨m2, h2, hr2, hl2⟩ : ∃ m2 : Motor,
      m1.interruptServiceRoutine ((t0 + D) % 2 ^ 32) = some m2 ∧
      m2.getRotationsPerMinute = 24000000 / D ∧
      m2.timeOfLastMeasurement = (t0 + D) % 2 ^ 32 % ulongModulus :=
    ⟨_, h2, rfl, rfl⟩
  have h3 := interruptServiceRoutine_of_interval m2 ((t0 + 2 * D) % 2 ^ 32) D
    (by rw [hl2, hM, hP]; omega) hD0
  obtain ⟨m3, h3, hr3⟩ : ∃ m3 : Motor,
      m2.interruptServiceRoutine ((t0 + 2 * D) % 2 ^ 32) = some m3 ∧
      m3.getRotationsPerMinute = 24000000 / D :=
    ⟨_, h3, rfl⟩
  exact ⟨m1, m2, m3, h1, h2, hr2, h3, hr3⟩

/-- C4 (code evaluated at the failing input): a new motor (previous timestamp 0) whose
first edge comes at the timestamp 0, followed by an edge at 1000.  The first call measures
the interval 0 and executes `24000000 / 0`: it has no result, so the run does not reach
the rate `24000000 / 1000`.  For every motor state and every start timestamp `t0` whose
first interval is not zero, and every `0 < D < 2 ^ 32` (`2 ^ 32 = 4294967296`), the three
calls at `t0`, `t0 + D`, `t0 + 2 * D` (modulo `2 ^ 32`) do return and the rate after the
second and after the third is `24000000 / D`. -/
theorem C4_zero_first_interval :
    ((Motor.new 15 11 19).timeOfLastMeasurement = 0 ∧
      (0 % ulongModulus + ulongModulus
        - (Motor.new 15 11 19).timeOfLastMeasurement % ulongModulus) % ulongModulus = 0 ∧
      (Motor.new 15 11 19).interruptServiceRoutine 0 = none ∧
      (((Motor.new 15 11 19).interruptServiceRoutine 0).bind
          (fun m => m.interruptServiceRoutine ((0 + 1000) % 2 ^ 32))) = none ∧
      (((Motor.new 15 11 19).interruptServiceRoutine 0).bind
          (fun m => m.interruptServiceRoutine ((0 + 1000) % 2 ^ 32))).map
            Motor.getRotationsPerMinute ≠ some (24000000 / 1000)) ∧
    (∀ (m : Motor) (t0 D : Nat), 0 < D → D < 4294967296 →
      t0 % 4294967296 ≠ m.timeOfLastMeasurement % 4294967296 →
      ∃ m1 m2 m3 : Motor,
        m.interruptServiceRoutine t0 = some m1 ∧
        m1.interruptServiceRoutine ((t0 + D) % 2 ^ 32) = some m2 ∧
        m2.getRotationsPerMinute = 24000000 / D ∧
        m2.interruptServiceRoutine ((t0 + 2 * D) % 2 ^ 32) = some m3 ∧
        m3.getRotationsPerMinute = 24000000 / D) :=
  ⟨by decide, interruptServiceRoutine_round_trip⟩

/-- C5 (counterexample): on a new motor the first edge is not suppressed.  With the
timestamp 1000 the routine divides and replaces the rate 0 by 24000; with the timestamp
0 the measured interval is 0 and the routine divides by it. -/
theorem C5_first_edge_not_suppressed :
    (Motor.new 15 11 19).getRotationsPerMinute = 0 ∧
    ((Motor.new 15 11 19).interruptServiceRoutine 1000).map Motor.getRotationsPerMinute
      = some 24000 ∧
    ((Motor.new 15 11 19).interruptServiceRoutine 1000).map Motor.getRotationsPerMinute
      ≠ some (Motor.new 15 11 19).getRotationsPerMinute ∧
    (0 % ulongModulus + ulongModulus
      - (Motor.new 15 11 19).timeOfLastMeasurement % ulongModulus) % ulongModulus = 0 ∧
    (Motor.new 15 11 19).interruptServiceRoutine 0 = none := by
  decide

/-- C5 (amended): on the first edge seen by a new motor, at any timestamp
`0 < t < 2 ^ 32`, the routine performs the division: the interval is measured from the
zero-initialised previous timestamp, and the rate becomes `24000000 / t`. -/
theorem C5_first_edge_rate (direction pwm tachPin t : Nat) (ht : 0 < t)
    (ht32 : t < 4294967296) :
    ((Motor.new direction pwm tachPin).interruptServiceRoutine t).map
        (fun m => m.microsecondsBetweenLines) = some t ∧
    ((Motor.new direction pwm tachPin).interruptServiceRoutine t).map
        Motor.getRotationsPerMinute = some (24000000 / t) ∧
    ((Motor.new direction pwm tachPin).interruptServiceRoutine t).map
        (fun m => m.timeOfLastMeasurement) = some t := by
  have hl : (Motor.new direction pwm tachPin).timeOfLastMeasurement = 0 := rfl
  have hM : ulongModulus = 4294967296 := by norm_num [ulongModulus]
  have e2 : t % ulongModulus = t := by rw [hM]; omega
  have ht0 : t ≠ 0 := by omega
  have h := interruptServiceRoutine_of_interval (Motor.new direction pwm tachPin) t t
    (by rw [hl, hM]; omega) ht0
  rw [h]
  simp [Motor.getRotationsPerMinute, e2]

/-- Witness of the amended C5 at the timestamp 4000. -/
theorem C5_first_edge_rate_witness :
    (0 < 4000 ∧ 4000 < 4294967296) ∧
    ((Motor.new 15 11 19).interruptServiceRoutine 4000).map
        (fun m => m.microsecondsBetweenLines) = some 4000 ∧
    ((Motor.new 15 11 19).interruptServiceRoutine 4000).map
        Motor.getRotationsPerMinute = some (24000000 / 4000) ∧
    ((Motor.new 15 11 19).interruptServiceRoutine 4000).map
        (fun m => m.timeOfLastMeasurement) = some 4000 :=
  ⟨by decide, C5_first_edge_rate 15 11 19 4000 (by decide) (by decide)⟩

/-! ## Speed controller: target and band -/

/-- Truncation leaves a whole number unchanged. -/
theorem truncToLong_intCast (z : Int) : truncToLong (z : ℚ) = z := by
  unfold truncToLong
  split <;> simp

/-- Rounding to the nearest whole number stays between floor and ceiling. -/
theorem roundHalfEven_mem (y : ℚ) : ⌊y⌋ ≤ roundHalfEven y ∧ roundHalfEven y ≤ ⌈y⌉ := by
  have hfc : ⌊y⌋ ≤ ⌈y⌉ := Int.floor_le_ceil y
  have hstep : ¬ (y - ⌊y⌋ < 1 / 2) → ⌊y⌋ + 1 ≤ ⌈y⌉ := by
    intro h
    have h1 : ((⌊y⌋ : Int) : ℚ) < y := by linarith
    have h2 : ⌊y⌋ < ⌈y⌉ := Int.lt_ceil.mpr h1
    omega
  unfold roundHalfEven
  split_ifs with h1 h2 h3
  · exact ⟨le_refl _, hfc⟩
  · exact ⟨by omega, hstep h1⟩
  · exact ⟨le_refl _, hfc⟩
  · exact ⟨by omega, hstep h1⟩

/-- Below `2 ^ 24` the spacing of the `float` values is a negative power of two. -/
theorem floatSpacingExponent_nonpos (x : ℚ) (hx : |x| < 2 ^ 24) :
    floatSpacingExponent x ≤ 0 := by
  have hlog : Int.log 2 |x| < 24 := by
    rcases (abs_nonneg x).eq_or_lt with h0 | hpos
    · rw [← h0, Int.log_zero_right]
      norm_num
    · apply (Int.lt_zpow_iff_log_lt (by norm_num) hpos).mp
      norm_num
      linarith
  unfold floatSpacingExponent
  omega

/-- Below `2 ^ 24` rounding to `float` does not cross a whole number: the result lies
between the floor and the ceiling of the exact value. -/
theorem roundToFloat_mem (x : ℚ) (hx : |x| < 2 ^ 24) :
    ((⌊x⌋ : Int) : ℚ) ≤ roundToFloat x ∧ roundToFloat x ≤ ((⌈x⌉ : Int) : ℚ) := by
  have he := floatSpacingExponent_nonpos x hx
  obtain ⟨k, hk⟩ : ∃ k : Nat, floatSpacingExponent x = -(k : Int) :=
    ⟨(-floatSpacingExponent x).toNat, by omega⟩
  have hq : (2 : ℚ) ^ floatSpacingExponent x = ((2 : ℚ) ^ k)⁻¹ := by
    rw [hk, zpow_neg, zpow_natCast]
  have hpow : (0 : ℚ) < (2 : ℚ) ^ k := by positivity
  have hm := roundHalfEven_mem (x / ((2 : ℚ) ^ k)⁻¹)
  have hy : x / ((2 : ℚ) ^ k)⁻¹ = x * (2 : ℚ) ^ k := by
    rw [div_inv_eq_mul]
  unfold roundToFloat
  rw [hq]
  rw [hy] at hm ⊢
  have hlo : ⌊x⌋ * (2 : Int) ^ k ≤ ⌊x * (2 : ℚ) ^ k⌋ := by
    apply Int.le_floor.mpr
    push_cast
    exact mul_le_mul_of_nonneg_right (Int.floor_le x) hpow.le
  have hhi : ⌈x * (2 : ℚ) ^ k⌉ ≤ ⌈x⌉ * (2 : Int) ^ k := by
    apply Int.ceil_le.mpr
    push_cast
    exact mul_le_mul_of_nonneg_right (Int.le_ceil x) hpow.le
  have h1 : ((⌊x⌋ * (2 : Int) ^ k : Int) : ℚ) ≤ (roundHalfEven (x * (2 : ℚ) ^ k) : ℚ) := by
    exact_mod_cast le_trans hlo hm.1
  have h2 : (roundHalfEven (x * (2 : ℚ) ^ k) : ℚ) ≤ ((⌈x⌉ * (2 : Int) ^ k : Int) : ℚ) := by
    exact_mod_cast le_trans hm.2 hhi
  push_cast at h1 h2
  constructor
  · rw [le_mul_inv_iff₀ hpow]
    exact h1
  · rw [mul_inv_le_iff₀ hpow]
    exact h2

/-- Truncation of a value that lies between two whole numbers lies between them. -/
theorem truncToLong_mem (y : ℚ) (a b : Int) (ha : (a : ℚ) ≤ y) (hb : y ≤ (b : ℚ)) :
    a ≤ truncToLong y ∧ truncToLong y ≤ b := by
  have h1 : a ≤ ⌊y⌋ := Int.le_floor.mpr ha
  have h2 : ⌈y⌉ ≤ b := Int.ceil_le.mpr hb
  have h3 : ⌊y⌋ ≤ ⌈y⌉ := Int.floor_le_ceil y
  unfold truncToLong
  split <;> omega

/-- The limited rate lies in `[-30, 30]`. -/
theorem clampRpm_mem (r : ℚ) : -30 ≤ Disc.clampRpm r ∧ Disc.clampRpm r ≤ 30 := by
  unfold Disc.clampRpm MAX_RPM
  split_ifs with h1 h2
  · norm_num
  · norm_num
  · constructor <;> linarith

/-- Limiting a rate twice is limiting it once. -/
theorem clampRpm_idem (r : ℚ) : Disc.clampRpm (Disc.clampRpm r) = Disc.clampRpm r := by
  have h := clampRpm_mem r
  generalize Disc.clampRpm r = c at h
  unfold Disc.clampRpm
  rw [if_neg (not_lt.mpr h.2), if_neg (not_lt.mpr h.1)]

/-- The loop of `updateSpeed` depends on the requested rate through the limited rate
only. -/
theorem updateSpeedRun_clamp (r : ℚ) (readings : Nat → Nat) (fuel k : Nat)
    (s : Disc.SpeedLoop) :
    Disc.updateSpeedRun (Disc.clampRpm r) readings fuel k s
      = Disc.updateSpeedRun r readings fuel k s := by
  have ht : Disc.desiredTachRpm (Disc.clampRpm r) = Disc.desiredTachRpm r := by
    unfold Disc.desiredTachRpm
    rw [clampRpm_idem]
  have hb : ∀ x, Disc.outsideBand (Disc.clampRpm r) x = Disc.outsideBand r x := by
    intro x
    unfold Disc.outsideBand Disc.desireMax Disc.desireMin
    rw [ht]
  have hbody : ∀ x s, Disc.updateSpeedBody (Disc.clampRpm r) x s
      = Disc.updateSpeedBody r x s := by
    intro x s
    unfold Disc.updateSpeedBody
    rw [ht]
  induction fuel generalizing k s with
  | zero => rfl
  | succ n ih =>
    unfold Disc.updateSpeedRun
    simp only [hb, hbody, ih]

/-- The target lies between the floor and the ceiling of the limited rate times 1250:
neither the rounding of the `float` product nor the conversion to `long` crosses a whole
number. -/
theorem desiredTachRpm_mem (r : ℚ) :
    ⌊Disc.clampRpm r * 1250⌋ ≤ Disc.desiredTachRpm r ∧
    Disc.desiredTachRpm r ≤ ⌈Disc.clampRpm r * 1250⌉ := by
  have hc := clampRpm_mem r
  have hx : |Disc.clampRpm r * 1250| < 2 ^ 24 := by
    rw [abs_lt]
    constructor <;> norm_num <;> linarith
  have hm := roundToFloat_mem (Disc.clampRpm r * 1250) hx
  unfold Disc.desiredTachRpm
  exact truncToLong_mem _ _ _ hm.1 hm.2

/-- When the limited rate times 1250 is a whole number, that number is the target. -/
theorem desiredTachRpm_eq_of_whole (r : ℚ) (z : Int) (h : Disc.clampRpm r * 1250 = (z : ℚ)) :
    Disc.desiredTachRpm r = z := by
  have hm := desiredTachRpm_mem r
  rw [h, Int.floor_intCast, Int.ceil_intCast] at hm
  omega

/-- The request `0.7f` (the `float` nearest to 0.7): the exact product with 1250 is below
875, the `float` product is 875, and so is the target. -/
theorem desiredTachRpm_seven_tenths :
    roundToFloat (7 / 10) = 11744051 / 16777216 ∧
    ⌊Disc.clampRpm (11744051 / 16777216) * 1250⌋ = 874 ∧
    Disc.desiredTachRpm (11744051 / 16777216) = 875 := by
  have hlog : ∀ (x : ℚ) (e : Int), (2 : ℚ) ^ e ≤ |x| → |x| < (2 : ℚ) ^ (e + 1) →
      Int.log 2 |x| = e := by
    intro x e h1 h2
    have hpos : (0 : ℚ) < |x| := lt_of_lt_of_le (by positivity) h1
    have a1 := (Int.zpow_le_iff_le_log (by norm_num : 1 < 2) hpos).mp
      (by simpa using h1 : ((2 : Nat) : ℚ) ^ e ≤ |x|)
    have a2 := (Int.lt_zpow_iff_log_lt (by norm_num : 1 < 2) hpos).mp
      (by simpa using h2 : |x| < ((2 : Nat) : ℚ) ^ (e + 1))
    omega
  refine ⟨?_, ?_, ?_⟩
  · have hl : Int.log 2 |(7 / 10 : ℚ)| = -1 :=
      hlog _ (-1) (by norm_num [abs_of_pos]) (by norm_num [abs_of_pos])
    have he : floatSpacingExponent (7 / 10) = -24 := by
      unfold floatSpacingExponent
      rw [hl]
      norm_num
    have hy : (7 / 10 : ℚ) / 2 ^ (-24 : Int) = 58720256 / 5 := by
      rw [zpow_neg]
      norm_num
    have hfl : ⌊(58720256 / 5 : ℚ)⌋ = 11744051 := by
      rw [Int.floor_eq_iff]
      norm_num
    have hr : roundHalfEven (58720256 / 5) = 11744051 := by
      unfold roundHalfEven
      rw [hfl]
      norm_num
    unfold roundToFloat
    rw [he, hy, hr, zpow_neg]
    norm_num
  · rw [Int.floor_eq_iff]
    norm_num [Disc.clampRpm]
  · have hp : Disc.clampRpm (11744051 / 16777216) * 1250 = 7340031875 / 8388608 := by
      norm_num [Disc.clampRpm]
    have hl : Int.log 2 |(7340031875 / 8388608 : ℚ)| = 9 :=
      hlog _ 9 (by norm_num [abs_of_pos]) (by norm_num [abs_of_pos])
    have he : floatSpacingExponent (7340031875 / 8388608) = -14 := by
      unfold floatSpacingExponent
      rw [hl]
      norm_num
    have hy : (7340031875 / 8388608 : ℚ) / 2 ^ (-14 : Int) = 7340031875 / 512 := by
      rw [zpow_neg]
      norm_num
    have hfl : ⌊(7340031875 / 512 : ℚ)⌋ = 14335999 := by
      rw [Int.floor_eq_iff]
      norm_num
    have hr : roundHalfEven (7340031875 / 512) = 14336000 := by
      unfold roundHalfEven
      rw [hfl]
      norm_num
    have hv : roundToFloat (7340031875 / 8388608) = ((875 : Int) : ℚ) := by
      unfold roundToFloat
      rw [he, hy, hr, zpow_neg]
      norm_num
    unfold Disc.desiredTachRpm
    rw [hp, hv, truncToLong_intCast]

/-- For a whole-number request the target is the request limited to `[-30, 30]`, times
1250. -/
theorem desiredTachRpm_intCast (n : Int) :
    Disc.desiredTachRpm (n : ℚ) = max (-30) (min 30 n) * 1250 := by
  apply desiredTachRpm_eq_of_whole
  unfold Disc.clampRpm MAX_RPM
  by_cases h1 : (30 : ℚ) < (n : ℚ)
  · have h1z : 30 < n := by exact_mod_cast h1
    have e : max (-30) (min 30 n) = 30 := by omega
    rw [if_pos h1, e]
    norm_num
  · have h1z : ¬ 30 < n := by exact_mod_cast h1
    by_cases h2 : (n : ℚ) < -30
    · have h2z : n < -30 := by exact_mod_cast h2
      have e : max (-30) (min 30 n) = -30 := by omega
      rw [if_neg h1, if_pos h2, e]
      norm_num
    · have h2z : ¬ n < -30 := by exact_mod_cast h2
      have e : max (-30) (min 30 n) = n := by omega
      rw [if_neg h1, if_neg h2, e]
      push_cast
      ring

/-! ## Speed controller: one loop iteration -/

/-- Percentage stored by `increasePercentage`: the guard tests the percentage before the
step is added. -/
theorem increasePercentage_percentage (m : Motor) (step : ℚ) :
    (m.increasePercentage step).percentage
      = if m.percentage < 100 then m.percentage + step else m.percentage := by
  unfold Motor.increasePercentage
  split <;> simp [Motor.runMotor]

/-- Percentage stored by `decreasePercentage`: the guard tests the percentage before the
step is subtracted. -/
theorem decreasePercentage_percentage (m : Motor) (step : ℚ) :
    (m.decreasePercentage step).percentage
      = if m.percentage > -100 then m.percentage - step else m.percentage := by
  unfold Motor.decreasePercentage
  split <;> simp [Motor.runMotor]

/-- Effect of one loop iteration, by comparison of the signed reading with the target. -/
theorem updateSpeedBody_cases (r : ℚ) (reading : Nat) (s : Disc.SpeedLoop) :
    (Disc.updateSpeedBody r reading s).tachRpm = Disc.signedReading s.motor reading ∧
    (Disc.signedReading s.motor reading < (Disc.desiredTachRpm r : ℚ) →
      (Disc.updateSpeedBody r reading s).motor
        = s.motor.increasePercentage
            (((Disc.desiredTachRpm r : ℚ) - Disc.signedReading s.motor reading) / 10000) ∧
      (Disc.updateSpeedBody r reading s).calls
        = s.calls ++ [Disc.ActuatorCall.increasePercentage
            (((Disc.desiredTachRpm r : ℚ) - Disc.signedReading s.motor reading) / 10000)]) ∧
    ((Disc.desiredTachRpm r : ℚ) < Disc.signedReading s.motor reading →
      (Disc.updateSpeedBody r reading s).motor
        = s.motor.decreasePercentage
            ((Disc.signedReading s.motor reading - (Disc.desiredTachRpm r : ℚ)) / 10000) ∧
      (Disc.updateSpeedBody r reading s).calls
        = s.calls ++ [Disc.ActuatorCall.decreasePercentage
            ((Disc.signedReading s.motor reading - (Disc.desiredTachRpm r : ℚ)) / 10000)]) ∧
    (Disc.signedReading s.motor reading = (Disc.desiredTachRpm r : ℚ) →
      (Disc.updateSpeedBody r reading s).motor = s.motor ∧
      (Disc.updateSpeedBody r reading s).calls = s.calls) := by
  refine ⟨?_, ?_, ?_, ?_⟩
  · unfold Disc.updateSpeedBody
    simp only
    split_ifs <;> rfl
  · intro h
    unfold Disc.updateSpeedBody
    simp only [gt_iff_lt, if_pos h, and_self]
  · intro h
    unfold Disc.updateSpeedBody
    simp only [gt_iff_lt, if_neg (not_lt.mpr h.le), if_pos h, and_self]
  · intro h
    unfold Disc.updateSpeedBody
    simp only [gt_iff_lt, h, lt_irrefl, if_false, and_self]

/-- The loop is left in a state whose `tachRpm` is inside the band. -/
theorem updateSpeedRun_inside (r : ℚ) (readings : Nat → Nat) (fuel k : Nat)
    (s : Disc.SpeedLoop) (h : ¬ Disc.outsideBand r s.tachRpm) :
    Disc.updateSpeedRun r readings fuel k s = s := by
  cases fuel with
  | zero => rfl
  | succ n =>
    unfold Disc.updateSpeedRun
    rw [if_neg h]

/-- The loop runs its body from a state whose `tachRpm` is outside the band. -/
theorem updateSpeedRun_outside (r : ℚ) (readings : Nat → Nat) (fuel k : Nat)
    (s : Disc.SpeedLoop) (h : Disc.outsideBand r s.tachRpm) :
    Disc.updateSpeedRun r readings (fuel + 1) k s
      = Disc.updateSpeedRun r readings fuel (k + 1)
          (Disc.updateSpeedBody r (readings k) s) := by
  rw [Disc.updateSpeedRun, if_pos h]

/-- C10 (counterexample): target 18750 (request 15), motor at 50 percent clockwise, reading
18000.  The reading is inside the band `[17750, 19750]`, yet the iteration calls
`increasePercentage (3 / 40)` and the percentage becomes `50 + 3 / 40`. -/
theorem C10_step_issued_inside_band :
    Disc.desiredTachRpm 15 = 18750 ∧
    Disc.signedReading ((Motor.new 15 11 19).runMotor 50) 18000 = 18000 ∧
    ¬ Disc.outsideBand 15 (Disc.signedReading ((Motor.new 15 11 19).runMotor 50) 18000) ∧
    (Disc.updateSpeedBody 15 18000
        { motor := (Motor.new 15 11 19).runMotor 50, tachRpm := 0, motorPercentage := 50,
          calls := [] }).calls
      = [Disc.ActuatorCall.increasePercentage (3 / 40)] ∧
    (Disc.updateSpeedBody 15 18000
        { motor := (Motor.new 15 11 19).runMotor 50, tachRpm := 0, motorPercentage := 50,
          calls := [] }).motor.percentage
      = 50 + 3 / 40 := by
  have t15 : Disc.desiredTachRpm 15 = 18750 :=
    desiredTachRpm_eq_of_whole 15 18750 (by norm_num [Disc.clampRpm])
  refine ⟨t15, ?_, ?_, ?_, ?_⟩
  · norm_num [Disc.signedReading, Motor.runMotor, Motor.getDirection]
  · norm_num [Disc.outsideBand, Disc.desireMax, Disc.desireMin, t15, Disc.signedReading,
      Motor.runMotor, Motor.getDirection]
  · norm_num [Disc.updateSpeedBody, Disc.signedReading, Motor.runMotor, Motor.getDirection,
      t15]
  · norm_num [Disc.updateSpeedBody, Disc.signedReading, Motor.runMotor, Motor.getDirection,
      t15, Motor.increasePercentage, Motor.getPercentage]

/-- C10 (amended): in every loop iteration, with signed reading `s` and target `t`: if
`s < t`, in particular if `s` is below the band, `increasePercentage ((t - s) / 10000)` is
called; if `s > t`, in particular if `s` is above the band,
`decreasePercentage ((s - t) / 10000)` is called; no call is issued only when `s = t`.
After the iteration the loop stops exactly when `s` is inside `[t - 1000, t + 1000]`. -/
theorem C10_iteration_steps_toward_target (r : ℚ) (reading : Nat) (s : Disc.SpeedLoop) :
    (Disc.signedReading s.motor reading < (Disc.desiredTachRpm r : ℚ) →
      (Disc.updateSpeedBody r reading s).motor
        = s.motor.increasePercentage
            (((Disc.desiredTachRpm r : ℚ) - Disc.signedReading s.motor reading) / 10000) ∧
      (Disc.updateSpeedBody r reading s).calls
        = s.calls ++ [Disc.ActuatorCall.increasePercentage
            (((Disc.desiredTachRpm r : ℚ) - Disc.signedReading s.motor reading) / 10000)]) ∧
    (Disc.signedReading s.motor reading < (Disc.desiredTachRpm r : ℚ) - 1000 →
      Disc.signedReading s.motor reading < (Disc.desiredTachRpm r : ℚ)) ∧
    ((Disc.desiredTachRpm r : ℚ) < Disc.signedReading s.motor reading →
      (Disc.updateSpeedBody r reading s).motor
        = s.motor.decreasePercentage
            ((Disc.signedReading s.motor reading - (Disc.desiredTachRpm r : ℚ)) / 10000) ∧
      (Disc.updateSpeedBody r reading s).calls
        = s.calls ++ [Disc.ActuatorCall.decreasePercentage
            ((Disc.signedReading s.motor reading - (Disc.desiredTachRpm r : ℚ)) / 10000)]) ∧
    ((Disc.desiredTachRpm r : ℚ) + 1000 < Disc.signedReading s.motor reading →
      (Disc.desiredTachRpm r : ℚ) < Disc.signedReading s.motor reading) ∧
    (Disc.signedReading s.motor reading = (Disc.desiredTachRpm r : ℚ) →
      (Disc.updateSpeedBody r reading s).motor = s.motor ∧
      (Disc.updateSpeedBody r reading s).calls = s.calls) ∧
    ((Disc.desiredTachRpm r : ℚ) - 1000 ≤ Disc.signedReading s.motor reading ∧
        Disc.signedReading s.motor reading ≤ (Disc.desiredTachRpm r : ℚ) + 1000 →
      ∀ (readings : Nat → Nat) (fuel k : Nat),
        Disc.updateSpeedRun r readings fuel k (Disc.updateSpeedBody r reading s)
          = Disc.updateSpeedBody r reading s) ∧
    (¬ ((Disc.desiredTachRpm r : ℚ) - 1000 ≤ Disc.signedReading s.motor reading ∧
        Disc.signedReading s.motor reading ≤ (Disc.desiredTachRpm r : ℚ) + 1000) →
      ∀ (readings : Nat → Nat) (fuel k : Nat),
        Disc.updateSpeedRun r readings (fuel + 1) k (Disc.updateSpeedBody r reading s)
          = Disc.updateSpeedRun r readings fuel (k + 1)
              (Disc.updateSpeedBody r (readings k) (Disc.updateSpeedBody r reading s))) := by
  have hb := updateSpeedBody_cases r reading s
  have hband : Disc.outsideBand r (Disc.updateSpeedBody r reading s).tachRpm ↔
      ¬ ((Disc.desiredTachRpm r : ℚ) - 1000 ≤ Disc.signedReading s.motor reading ∧
        Disc.signedReading s.motor reading ≤ (Disc.desiredTachRpm r : ℚ) + 1000) := by
    rw [hb.1]
    unfold Disc.outsideBand Disc.desireMax Disc.desireMin
    push_cast
    constructor
    · rintro (h | h) ⟨h1, h2⟩ <;> linarith
    · intro h
      by_contra hc
      push_neg at hc
      exact h ⟨hc.2, hc.1⟩
  refine ⟨hb.2.1, ?_, hb.2.2.1, ?_, hb.2.2.2, ?_, ?_⟩
  · intro h
    linarith
  · intro h
    linarith
  · intro h readings fuel k
    exact updateSpeedRun_inside r readings fuel k _ (fun ho => (hband.mp ho) h)
  · intro h readings fuel k
    exact updateSpeedRun_outside r readings fuel k _ (hband.mpr h)

/-! ## Speed controller: reading inside the band on entry -/

/-- The absolute value of the signed reading is the tachometer reading. -/
theorem abs_signedReading (m : Motor) (reading : Nat) :
    |Disc.signedReading m reading| = (reading : ℚ) := by
  unfold Disc.signedReading
  split
  · rw [abs_neg, abs_of_nonneg (Nat.cast_nonneg reading)]
  · rw [abs_of_nonneg (Nat.cast_nonneg reading)]

/-- For a target that is not negative: when the signed reading on entry is within 999 of
the target, `updateSpeed` returns without entering the loop: it issues no call and leaves
the motor as it is. -/
theorem updateSpeed_inside_band_of_nonneg_target (d : Disc) (r : ℚ) (readings : Nat → Nat)
    (fuel : Nat) (off : ℚ) (ht : 0 ≤ Disc.desiredTachRpm r) (hoff : |off| ≤ 999)
    (hs : Disc.signedReading d.motor (readings 0) = (Disc.desiredTachRpm r : ℚ) + off) :
    d.updateSpeed r readings fuel = some (Disc.updateSpeedEntry d readings) ∧
    (Disc.updateSpeedEntry d readings).calls = [] ∧
    (Disc.updateSpeedEntry d readings).motor = d.motor := by
  have hrd := abs_signedReading d.motor (readings 0)
  rw [hs] at hrd
  have ht2 : (0 : ℚ) ≤ (Disc.desiredTachRpm r : ℚ) := by exact_mod_cast ht
  have ho := abs_le.mp hoff
  have hin : ¬ Disc.outsideBand r (Disc.updateSpeedEntry d readings).tachRpm := by
    show ¬ Disc.outsideBand r (readings 0 : ℚ)
    rw [← hrd]
    unfold Disc.outsideBand Disc.desireMax Disc.desireMin
    push_cast
    rcases abs_cases ((Disc.desiredTachRpm r : ℚ) + off) with ⟨h1, h2⟩ | ⟨h1, h2⟩
    · rw [h1]
      rintro (h | h) <;> linarith
    · rw [h1]
      rintro (h | h) <;> linarith
  refine ⟨?_, rfl, rfl⟩
  unfold Disc.updateSpeed
  simp only [updateSpeedRun_inside r readings fuel 1 _ hin, if_neg hin]

/-- C7 (code evaluated at the failing input): request -15 (target -18750), motor at -50
percent, so that the direction pin reads 0, tachometer reading 18250 at every sample: the
signed reading is `-18750 + 500`, inside the band.  `updateSpeed` compares the first
reading without negating it, enters the loop, calls `decreasePercentage (1 / 20)` and
leaves the motor at `-50 - 1 / 20` percent. -/
theorem C7_negative_target_steps_inside_band :
    Disc.desiredTachRpm (-15) = -18750 ∧
    Disc.signedReading ((Motor.new 15 11 19).runMotor (-50)) 18250 = -18750 + 500 ∧
    ¬ Disc.outsideBand (-15)
        (Disc.signedReading ((Motor.new 15 11 19).runMotor (-50)) 18250) ∧
    ((Disc.mk ((Motor.new 15 11 19).runMotor (-50))).updateSpeed (-15)
        (fun _ => 18250) 1).map (fun s => s.calls)
      = some [Disc.ActuatorCall.decreasePercentage (1 / 20)] ∧
    ((Disc.mk ((Motor.new 15 11 19).runMotor (-50))).updateSpeed (-15)
        (fun _ => 18250) 1).map (fun s => s.motor.percentage)
      = some (-50 - 1 / 20) ∧
    ((Disc.mk ((Motor.new 15 11 19).runMotor (-50))).updateSpeed (-15)
        (fun _ => 18250) 1).map (fun s => Disc.signedReading s.motor 18250)
      = some (-18750 + 500) := by
  have t15 : Disc.desiredTachRpm (-15) = -18750 :=
    desiredTachRpm_eq_of_whole (-15) (-18750) (by norm_num [Disc.clampRpm])
  refine ⟨t15, ?_, ?_, ?_, ?_, ?_⟩
  · norm_num [Disc.signedReading, Motor.runMotor, Motor.getDirection]
  · norm_num [Disc.outsideBand, Disc.desireMax, Disc.desireMin, t15, Disc.signedReading,
      Motor.runMotor, Motor.getDirection]
  · norm_num [Disc.updateSpeed, Disc.updateSpeedRun, Disc.updateSpeedEntry,
      Disc.updateSpeedBody, Disc.outsideBand, Disc.desireMax, Disc.desireMin, t15,
      Disc.signedReading, Motor.runMotor, Motor.getDirection]
  · norm_num [Disc.updateSpeed, Disc.updateSpeedRun, Disc.updateSpeedEntry,
      Disc.updateSpeedBody, Disc.outsideBand, Disc.desireMax, Disc.desireMin, t15,
      Disc.signedReading, Motor.runMotor, Motor.getDirection, Motor.decreasePercentage,
      Motor.getPercentage]
  · norm_num [Disc.updateSpeed, Disc.updateSpeedRun, Disc.updateSpeedEntry,
      Disc.updateSpeedBody, Disc.outsideBand, Disc.desireMax, Disc.desireMin, t15,
      Disc.signedReading, Motor.runMotor, Motor.getDirection, Motor.decreasePercentage,
      Motor.getPercentage]

/-! ## Speed controller: stalled axle -/

/-- A tachometer reading of 0 is the signed reading 0 whatever the direction. -/
theorem signedReading_zero (m : Motor) : Disc.signedReading m 0 = 0 := by
  unfold Disc.signedReading
  split <;> simp

/-- With readings that are always 0 and a band that excludes 0, the loop never stops:
the state after `n + 1` iterations is the body applied to the state after `n`. -/
theorem updateSpeedRun_stalled (r : ℚ) (hout : Disc.outsideBand r 0) (n k : Nat)
    (s : Disc.SpeedLoop) (hs : s.tachRpm = 0) :
    (Disc.updateSpeedRun r (fun _ => 0) n k s).tachRpm = 0 ∧
    Disc.updateSpeedRun r (fun _ => 0) (n + 1) k s
      = Disc.updateSpeedBody r 0 (Disc.updateSpeedRun r (fun _ => 0) n k s) := by
  induction n generalizing k s with
  | zero =>
    refine ⟨hs, ?_⟩
    rw [updateSpeedRun_outside r _ 0 k s (by rw [hs]; exact hout)]
    rfl
  | succ n ih =>
    have hb : (Disc.updateSpeedBody r 0 s).tachRpm = 0 := by
      rw [(updateSpeedBody_cases r 0 s).1, signedReading_zero]
    have h1 := updateSpeedRun_outside r (fun _ => 0) n k s (by rw [hs]; exact hout)
    have h2 := updateSpeedRun_outside r (fun _ => 0) (n + 1) k s (by rw [hs]; exact hout)
    have hi := ih (k + 1) (Disc.updateSpeedBody r 0 s) hb
    refine ⟨?_, ?_⟩
    · rw [h1]
      exact hi.1
    · rw [h2, h1]
      exact hi.2

/-- Stalled axle, positive target: an iteration calls `increasePercentage` with the
amount `target / 10000`, which adds that amount to the percentage unless the percentage
has reached 100. -/
theorem updateSpeedBody_stalled_pos (r : ℚ) (ht : 0 < Disc.desiredTachRpm r)
    (s : Disc.SpeedLoop) :
    (Disc.updateSpeedBody r 0 s).calls
      = s.calls ++ [Disc.ActuatorCall.increasePercentage
          ((Disc.desiredTachRpm r : ℚ) / 10000)] ∧
    (Disc.updateSpeedBody r 0 s).motor
      = s.motor.increasePercentage ((Disc.desiredTachRpm r : ℚ) / 10000) ∧
    (Disc.updateSpeedBody r 0 s).motor.percentage
      = (if s.motor.percentage < 100
          then s.motor.percentage + (Disc.desiredTachRpm r : ℚ) / 10000
          else s.motor.percentage) ∧
    s.motor.percentage ≤ (Disc.updateSpeedBody r 0 s).motor.percentage := by
  have ht2 : (0 : ℚ) < (Disc.desiredTachRpm r : ℚ) := by exact_mod_cast ht
  have hb := (updateSpeedBody_cases r 0 s).2.1 (by rw [signedReading_zero]; exact ht2)
  rw [signedReading_zero, sub_zero] at hb
  refine ⟨hb.2, hb.1, by rw [hb.1, increasePercentage_percentage], ?_⟩
  rw [hb.1, increasePercentage_percentage]
  split
  · have : (0 : ℚ) ≤ (Disc.desiredTachRpm r : ℚ) / 10000 := by positivity
    linarith
  · exact le_refl _

/-- Stalled axle, negative target: an iteration calls `decreasePercentage` with the
amount `-target / 10000`, which subtracts that amount from the percentage unless the
percentage has reached -100. -/
theorem updateSpeedBody_stalled_neg (r : ℚ) (ht : Disc.desiredTachRpm r < 0)
    (s : Disc.SpeedLoop) :
    (Disc.updateSpeedBody r 0 s).calls
      = s.calls ++ [Disc.ActuatorCall.decreasePercentage
          (-(Disc.desiredTachRpm r : ℚ) / 10000)] ∧
    (Disc.updateSpeedBody r 0 s).motor
      = s.motor.decreasePercentage (-(Disc.desiredTachRpm r : ℚ) / 10000) ∧
    (Disc.updateSpeedBody r 0 s).motor.percentage
      = (if s.motor.percentage > -100
          then s.motor.percentage - -(Disc.desiredTachRpm r : ℚ) / 10000
          else s.motor.percentage) ∧
    (Disc.updateSpeedBody r 0 s).motor.percentage ≤ s.motor.percentage := by
  have ht2 : (Disc.desiredTachRpm r : ℚ) < 0 := by exact_mod_cast ht
  have hb := (updateSpeedBody_cases r 0 s).2.2.1 (by rw [signedReading_zero]; exact ht2)
  rw [signedReading_zero, zero_sub] at hb
  refine ⟨hb.2, hb.1, by rw [hb.1, decreasePercentage_percentage], ?_⟩
  rw [hb.1, decreasePercentage_percentage]
  split
  · have : (0 : ℚ) ≤ -(Disc.desiredTachRpm r : ℚ) / 10000 := by
      apply div_nonneg <;> linarith
    linarith
  · exact le_refl _

/-- C8: stalled axle (every reading 0), target outside the band around 0, starting
percentage in `[-100, 100]`.  For every `n` the loop is still running after `n`
iterations.  For a positive target each iteration called `increasePercentage` with the
positive amount `target / 10000`: iteration `n + 1` adds that amount to the percentage
when the percentage is below 100 and leaves it otherwise, so the percentage never
decreases, increases strictly while it is below 100, equals the starting percentage plus
`n` times the amount as long as that is below 100 plus the amount, and stays below 100
plus the amount.  For a negative target the same holds with `decreasePercentage`, the
positive amount `-target / 10000`, subtraction and the bound -100. -/
theorem C8_stalled_axle_steps_one_way (d : Disc) (r : ℚ) (n : Nat)
    (hlo : -100 ≤ d.motor.percentage) (hhi : d.motor.percentage ≤ 100)
    (hout : Disc.outsideBand r 0) :
    d.updateSpeed r (fun _ => 0) n = none ∧
    (0 < Disc.desiredTachRpm r ∨ Disc.desiredTachRpm r < 0) ∧
    (0 < Disc.desiredTachRpm r →
      (0 : ℚ) ≤ (Disc.desiredTachRpm r : ℚ) / 10000 ∧
      (Disc.updateSpeedRun r (fun _ => 0) n 1 (Disc.updateSpeedEntry d (fun _ => 0))).calls
        = List.replicate n
            (Disc.ActuatorCall.increasePercentage ((Disc.desiredTachRpm r : ℚ) / 10000)) ∧
      d.motor.percentage ≤
        (Disc.updateSpeedRun r (fun _ => 0) n 1
          (Disc.updateSpeedEntry d (fun _ => 0))).motor.percentage ∧
      (Disc.updateSpeedRun r (fun _ => 0) n 1
          (Disc.updateSpeedEntry d (fun _ => 0))).motor.percentage ≤
        (Disc.updateSpeedRun r (fun _ => 0) (n + 1) 1
          (Disc.updateSpeedEntry d (fun _ => 0))).motor.percentage ∧
      (0 : ℚ) < (Disc.desiredTachRpm r : ℚ) / 10000 ∧
      (Disc.updateSpeedRun r (fun _ => 0) (n + 1) 1
          (Disc.updateSpeedEntry d (fun _ => 0))).motor
        = (Disc.updateSpeedRun r (fun _ => 0) n 1
            (Disc.updateSpeedEntry d (fun _ => 0))).motor.increasePercentage
              ((Disc.desiredTachRpm r : ℚ) / 10000) ∧
      (Disc.updateSpeedRun r (fun _ => 0) (n + 1) 1
          (Disc.updateSpeedEntry d (fun _ => 0))).motor.percentage
        = (if (Disc.updateSpeedRun r (fun _ => 0) n 1
              (Disc.updateSpeedEntry d (fun _ => 0))).motor.percentage < 100
            then (Disc.updateSpeedRun r (fun _ => 0) n 1
              (Disc.updateSpeedEntry d (fun _ => 0))).motor.percentage
                + (Disc.desiredTachRpm r : ℚ) / 10000
            else (Disc.updateSpeedRun r (fun _ => 0) n 1
              (Disc.updateSpeedEntry d (fun _ => 0))).motor.percentage) ∧
      ((Disc.updateSpeedRun r (fun _ => 0) n 1
          (Disc.updateSpeedEntry d (fun _ => 0))).motor.percentage < 100 →
        (Disc.updateSpeedRun r (fun _ => 0) n 1
            (Disc.updateSpeedEntry d (fun _ => 0))).motor.percentage <
          (Disc.updateSpeedRun r (fun _ => 0) (n + 1) 1
            (Disc.updateSpeedEntry d (fun _ => 0))).motor.percentage) ∧
      (d.motor.percentage + (n : ℚ) * ((Disc.desiredTachRpm r : ℚ) / 10000)
          < 100 + (Disc.desiredTachRpm r : ℚ) / 10000 →
        (Disc.updateSpeedRun r (fun _ => 0) n 1
            (Disc.updateSpeedEntry d (fun _ => 0))).motor.percentage
          = d.motor.percentage + (n : ℚ) * ((Disc.desiredTachRpm r : ℚ) / 10000)) ∧
      (Disc.updateSpeedRun r (fun _ => 0) n 1
          (Disc.updateSpeedEntry d (fun _ => 0))).motor.percentage
        < 100 + (Disc.desiredTachRpm r : ℚ) / 10000) ∧
    (Disc.desiredTachRpm r < 0 →
      (0 : ℚ) ≤ -(Disc.desiredTachRpm r : ℚ) / 10000 ∧
      (Disc.updateSpeedRun r (fun _ => 0) n 1 (Disc.updateSpeedEntry d (fun _ => 0))).calls
        = List.replicate n
            (Disc.ActuatorCall.decreasePercentage (-(Disc.desiredTachRpm r : ℚ) / 10000)) ∧
      (Disc.updateSpeedRun r (fun _ => 0) n 1
          (Disc.updateSpeedEntry d (fun _ => 0))).motor.percentage ≤ d.motor.percentage ∧
      (Disc.updateSpeedRun r (fun _ => 0) (n + 1) 1
          (Disc.updateSpeedEntry d (fun _ => 0))).motor.percentage ≤
        (Disc.updateSpeedRun r (fun _ => 0) n 1
          (Disc.updateSpeedEntry d (fun _ => 0))).motor.percentage ∧
      (0 : ℚ) < -(Disc.desiredTachRpm r : ℚ) / 10000 ∧
      (Disc.updateSpeedRun r (fun _ => 0) (n + 1) 1
          (Disc.updateSpeedEntry d (fun _ => 0))).motor
        = (Disc.updateSpeedRun r (fun _ => 0) n 1
            (Disc.updateSpeedEntry d (fun _ => 0))).motor.decreasePercentage
              (-(Disc.desiredTachRpm r : ℚ) / 10000) ∧
      (Disc.updateSpeedRun r (fun _ => 0) (n + 1) 1
          (Disc.updateSpeedEntry d (fun _ => 0))).motor.percentage
        = (if (Disc.updateSpeedRun r (fun _ => 0) n 1
              (Disc.updateSpeedEntry d (fun _ => 0))).motor.percentage > -100
            then (Disc.updateSpeedRun r (fun _ => 0) n 1
              (Disc.updateSpeedEntry d (fun _ => 0))).motor.percentage
                - -(Disc.desiredTachRpm r : ℚ) / 10000
            else (Disc.updateSpeedRun r (fun _ => 0) n 1
              (Disc.updateSpeedEntry d (fun _ => 0))).motor.percentage) ∧
      ((Disc.updateSpeedRun r (fun _ => 0) n 1
          (Disc.updateSpeedEntry d (fun _ => 0))).motor.percentage > -100 →
        (Disc.updateSpeedRun r (fun _ => 0) (n + 1) 1
            (Disc.updateSpeedEntry d (fun _ => 0))).motor.percentage <
          (Disc.updateSpeedRun r (fun _ => 0) n 1
            (Disc.updateSpeedEntry d (fun _ => 0))).motor.percentage) ∧
      (-100 - -(Disc.desiredTachRpm r : ℚ) / 10000
          < d.motor.percentage - (n : ℚ) * (-(Disc.desiredTachRpm r : ℚ) / 10000) →
        (Disc.updateSpeedRun r (fun _ => 0) n 1
            (Disc.updateSpeedEntry d (fun _ => 0))).motor.percentage
          = d.motor.percentage - (n : ℚ) * (-(Disc.desiredTachRpm r : ℚ) / 10000)) ∧
      -100 - -(Disc.desiredTachRpm r : ℚ) / 10000
        < (Disc.updateSpeedRun r (fun _ => 0) n 1
            (Disc.updateSpeedEntry d (fun _ => 0))).motor.percentage) := by
  have he : (Disc.updateSpeedEntry d (fun _ => 0)).tachRpm = 0 := by
    simp [Disc.updateSpeedEntry]
  have hrun := fun m => updateSpeedRun_stalled r hout m 1 _ he
  have hsign : 0 < Disc.desiredTachRpm r ∨ Disc.desiredTachRpm r < 0 := by
    unfold Disc.outsideBand Disc.desireMax Disc.desireMin at hout
    push_cast at hout
    rcases hout with h | h
    · right
      have : (Disc.desiredTachRpm r : ℚ) < 0 := by linarith
      exact_mod_cast this
    · left
      have : (0 : ℚ) < (Disc.desiredTachRpm r : ℚ) := by linarith
      exact_mod_cast this
  refine ⟨?_, hsign, ?_, ?_⟩
  · unfold Disc.updateSpeed
    simp only [(hrun n).1, if_pos hout]
  · intro ht
    have ht2 : (0 : ℚ) < (Disc.desiredTachRpm r : ℚ) := by exact_mod_cast ht
    have hstep : (0 : ℚ) < (Disc.desiredTachRpm r : ℚ) / 10000 := by positivity
    have hrec : ∀ m : Nat,
        (Disc.updateSpeedRun r (fun _ => 0) (m + 1) 1
            (Disc.updateSpeedEntry d (fun _ => 0))).motor.percentage
          = (if (Disc.updateSpeedRun r (fun _ => 0) m 1
                (Disc.updateSpeedEntry d (fun _ => 0))).motor.percentage < 100
              then (Disc.updateSpeedRun r (fun _ => 0) m 1
                (Disc.updateSpeedEntry d (fun _ => 0))).motor.percentage
                  + (Disc.desiredTachRpm r : ℚ) / 10000
              else (Disc.updateSpeedRun r (fun _ => 0) m 1
                (Disc.updateSpeedEntry d (fun _ => 0))).motor.percentage) := by
      intro m
      rw [(hrun m).2]
      exact (updateSpeedBody_stalled_pos r ht _).2.2.1
    have hclosed : ∀ m : Nat,
        d.motor.percentage + (m : ℚ) * ((Disc.desiredTachRpm r : ℚ) / 10000)
            < 100 + (Disc.desiredTachRpm r : ℚ) / 10000 →
          (Disc.updateSpeedRun r (fun _ => 0) m 1
              (Disc.updateSpeedEntry d (fun _ => 0))).motor.percentage
            = d.motor.percentage + (m : ℚ) * ((Disc.desiredTachRpm r : ℚ) / 10000) := by
      intro m
      induction m with
      | zero =>
        intro _
        simp [Disc.updateSpeedRun, Disc.updateSpeedEntry]
      | succ k ih =>
        intro hk
        push_cast at hk
        have hk2 : d.motor.percentage + (k : ℚ) * ((Disc.desiredTachRpm r : ℚ) / 10000)
            < 100 := by linarith
        have ihk := ih (by linarith)
        rw [hrec k, ihk, if_pos hk2]
        push_cast
        ring
    have hbound : ∀ m : Nat,
        (Disc.updateSpeedRun r (fun _ => 0) m 1
            (Disc.updateSpeedEntry d (fun _ => 0))).motor.percentage
          < 100 + (Disc.desiredTachRpm r : ℚ) / 10000 := by
      intro m
      induction m with
      | zero =>
        have : (Disc.updateSpeedRun r (fun _ => 0) 0 1
            (Disc.updateSpeedEntry d (fun _ => 0))).motor.percentage
              = d.motor.percentage := rfl
        rw [this]
        linarith
      | succ k ih =>
        rw [hrec k]
        split
        · linarith
        · exact ih
    refine ⟨hstep.le, ?_, ?_, ?_, hstep, ?_, hrec n, ?_, hclosed n, hbound n⟩
    · induction n with
      | zero => rfl
      | succ m ih =>
        rw [(hrun m).2, (updateSpeedBody_stalled_pos r ht _).1, ih, List.replicate_succ']
    · induction n with
      | zero => exact le_refl _
      | succ m ih =>
        rw [(hrun m).2]
        exact le_trans ih (updateSpeedBody_stalled_pos r ht _).2.2.2
    · rw [(hrun n).2]
      exact (updateSpeedBody_stalled_pos r ht _).2.2.2
    · rw [(hrun n).2]
      exact (updateSpeedBody_stalled_pos r ht _).2.1
    · intro hlt
      rw [hrec n, if_pos hlt]
      linarith
  · intro ht
    have ht2 : (Disc.desiredTachRpm r : ℚ) < 0 := by exact_mod_cast ht
    have hstep : (0 : ℚ) < -(Disc.desiredTachRpm r : ℚ) / 10000 := by
      apply div_pos <;> linarith
    have hrec : ∀ m : Nat,
        (Disc.updateSpeedRun r (fun _ => 0) (m + 1) 1
            (Disc.updateSpeedEntry d (fun _ => 0))).motor.percentage
          = (if (Disc.updateSpeedRun r (fun _ => 0) m 1
                (Disc.updateSpeedEntry d (fun _ => 0))).motor.percentage > -100
              then (Disc.updateSpeedRun r (fun _ => 0) m 1
                (Disc.updateSpeedEntry d (fun _ => 0))).motor.percentage
                  - -(Disc.desiredTachRpm r : ℚ) / 10000
              else (Disc.updateSpeedRun r (fun _ => 0) m 1
                (Disc.updateSpeedEntry d (fun _ => 0))).motor.percentage) := by
      intro m
      rw [(hrun m).2]
      exact (updateSpeedBody_stalled_neg r ht _).2.2.1
    have hclosed : ∀ m : Nat,
        -100 - -(Disc.desiredTachRpm r : ℚ) / 10000
            < d.motor.percentage - (m : ℚ) * (-(Disc.desiredTachRpm r : ℚ) / 10000) →
          (Disc.updateSpeedRun r (fun _ => 0) m 1
              (Disc.updateSpeedEntry d (fun _ => 0))).motor.percentage
            = d.motor.percentage - (m : ℚ) * (-(Disc.desiredTachRpm r : ℚ) / 10000) := by
      intro m
      induction m with
      | zero =>
        intro _
        simp [Disc.updateSpeedRun, Disc.updateSpeedEntry]
      | succ k ih =>
        intro hk
        push_cast at hk
        have hk2 : d.motor.percentage - (k : ℚ) * (-(Disc.desiredTachRpm r : ℚ) / 10000)
            > -100 := by linarith
        have ihk := ih (by linarith)
        rw [hrec k, ihk, if_pos hk2]
        push_cast
        ring
    have hbound : ∀ m : Nat,
        -100 - -(Disc.desiredTachRpm r : ℚ) / 10000
          < (Disc.updateSpeedRun r (fun _ => 0) m 1
              (Disc.updateSpeedEntry d (fun _ => 0))).motor.percentage := by
      intro m
      induction m with
      | zero =>
        have : (Disc.updateSpeedRun r (fun _ => 0) 0 1
            (Disc.updateSpeedEntry d (fun _ => 0))).motor.percentage
              = d.motor.percentage := rfl
        rw [this]
        linarith
      | succ k ih =>
        rw [hrec k]
        split
        · linarith
        · exact ih
    refine ⟨hstep.le, ?_, ?_, ?_, hstep, ?_, hrec n, ?_, hclosed n, hbound n⟩
    · induction n with
      | zero => rfl
      | succ m ih =>
        rw [(hrun m).2, (updateSpeedBody_stalled_neg r ht _).1, ih, List.replicate_succ']
    · induction n with
      | zero => exact le_refl _
      | succ m ih =>
        rw [(hrun m).2]
        exact le_trans (updateSpeedBody_stalled_neg r ht _).2.2.2 ih
    · rw [(hrun n).2]
      exact (updateSpeedBody_stalled_neg r ht _).2.2.2
    · rw [(hrun n).2]
      exact (updateSpeedBody_stalled_neg r ht _).2.1
    · intro hlt
      rw [hrec n, if_pos hlt]
      linarith

/-- Witness of C8: motor at 50 percent, request 15 (target 18750), three iterations: three
calls of `increasePercentage` and the percentage `50 + 3 * (18750 / 10000)`. -/
theorem C8_stalled_axle_steps_one_way_witness :
    (-100 ≤ (Disc.mk ((Motor.new 15 11 19).runMotor 50)).motor.percentage ∧
      (Disc.mk ((Motor.new 15 11 19).runMotor 50)).motor.percentage ≤ 100 ∧
      Disc.outsideBand 15 0 ∧ 0 < Disc.desiredTachRpm 15) ∧
    (Disc.mk ((Motor.new 15 11 19).runMotor 50)).updateSpeed 15 (fun _ => 0) 3 = none ∧
    (Disc.updateSpeedRun 15 (fun _ => 0) 3 1
        (Disc.updateSpeedEntry (Disc.mk ((Motor.new 15 11 19).runMotor 50))
          (fun _ => 0))).calls
      = List.replicate 3
          (Disc.ActuatorCall.increasePercentage ((Disc.desiredTachRpm 15 : ℚ) / 10000)) ∧
    (Disc.updateSpeedRun 15 (fun _ => 0) 3 1
        (Disc.updateSpeedEntry (Disc.mk ((Motor.new 15 11 19).runMotor 50))
          (fun _ => 0))).motor.percentage
      = 50 + 3 * (18750 / 10000) := by
  have t15 : Disc.desiredTachRpm 15 = 18750 :=
    desiredTachRpm_eq_of_whole 15 18750 (by norm_num [Disc.clampRpm])
  have hp : (Disc.mk ((Motor.new 15 11 19).runMotor 50)).motor.percentage = 50 := by
    norm_num [Motor.runMotor]
  have h1 : -100 ≤ (Disc.mk ((Motor.new 15 11 19).runMotor 50)).motor.percentage := by
    rw [hp]
    norm_num
  have h2 : (Disc.mk ((Motor.new 15 11 19).runMotor 50)).motor.percentage ≤ 100 := by
    rw [hp]
    norm_num
  have h3 : Disc.outsideBand 15 0 := by
    norm_num [Disc.outsideBand, Disc.desireMax, Disc.desireMin, t15]
  have h4 : 0 < Disc.desiredTachRpm 15 := by
    rw [t15]
    norm_num
  have hc := ((C8_stalled_axle_steps_one_way (Disc.mk ((Motor.new 15 11 19).runMotor 50))
    15 3 h1 h2 h3).2.2.1 h4).2.2.2.2.2.2.2.2.1
  rw [hp, t15] at hc
  refine ⟨⟨h1, h2, h3, h4⟩,
    (C8_stalled_axle_steps_one_way (Disc.mk ((Motor.new 15 11 19).runMotor 50)) 15 3
      h1 h2 h3).1,
    ((C8_stalled_axle_steps_one_way (Disc.mk ((Motor.new 15 11 19).runMotor 50)) 15 3
      h1 h2 h3).2.2.1 h4).2.1, ?_⟩
  rw [hc (by norm_num)]
  norm_num

/-! ## Stepping the percentage -/

/-- C9 (code evaluated at the failing input): at 99 percent `increasePercentage (15 / 8)`
stores `99 + 15 / 8`, above 100, and at -99 percent `decreasePercentage (15 / 8)` stores
`-99 - 15 / 8`, below -100: the guard tests the percentage before the step, not the
result.  The step `15 / 8` is the one `updateSpeed` issues for the request 15 on a stalled
axle. -/
theorem C9_step_leaves_range :
    ((Motor.new 15 11 19).runMotor 99).percentage = 99 ∧
    (((Motor.new 15 11 19).runMotor 99).increasePercentage (15 / 8)).percentage
      = 99 + 15 / 8 ∧
    100 < (((Motor.new 15 11 19).runMotor 99).increasePercentage (15 / 8)).percentage ∧
    ((Motor.new 15 11 19).runMotor (-99)).percentage = -99 ∧
    (((Motor.new 15 11 19).runMotor (-99)).decreasePercentage (15 / 8)).percentage
      = -99 - 15 / 8 ∧
    (((Motor.new 15 11 19).runMotor (-99)).decreasePercentage (15 / 8)).percentage < -100 ∧
    (Disc.updateSpeedRun 15 (fun _ => 0) 1 1
        (Disc.updateSpeedEntry (Disc.mk ((Motor.new 15 11 19).runMotor 99))
          (fun _ => 0))).motor.percentage
      = 99 + 15 / 8 := by
  have t15 : Disc.desiredTachRpm 15 = 18750 :=
    desiredTachRpm_eq_of_whole 15 18750 (by norm_num [Disc.clampRpm])
  refine ⟨?_, ?_, ?_, ?_, ?_, ?_, ?_⟩
  · norm_num [Motor.runMotor]
  · norm_num [Motor.runMotor, Motor.increasePercentage]
  · norm_num [Motor.runMotor, Motor.increasePercentage]
  · norm_num [Motor.runMotor]
  · norm_num [Motor.runMotor, Motor.decreasePercentage]
  · norm_num [Motor.runMotor, Motor.decreasePercentage]
  · norm_num [Disc.updateSpeedRun, Disc.updateSpeedEntry, Disc.updateSpeedBody,
      Disc.outsideBand, Disc.desireMax, Disc.desireMin, t15, Disc.signedReading,
      Motor.runMotor, Motor.getDirection, Motor.increasePercentage, Motor.getPercentage]

/-! ## Range of the PWM duty -/

/-- Truncation keeps a value of `[0, 255]` inside `[0, 255]`. -/
theorem truncToLong_mem_of_mem (x : ℚ) (h0 : 0 ≤ x) (h1 : x ≤ 255) :
    0 ≤ truncToLong x ∧ truncToLong x ≤ 255 := by
  unfold truncToLong
  rw [if_pos h0]
  refine ⟨Int.floor_nonneg.mpr h0, ?_⟩
  have h2 : ((⌊x⌋ : Int) : ℚ) ≤ ((255 : Int) : ℚ) := by
    have := Int.floor_le x
    push_cast
    linarith
  exact_mod_cast h2

/-- With `minUsablePercent ≤ maxUsablePercent ≤ 100`, a command of `[-100, 100]` is turned
into a PWM value of `[0, 255]`. -/
theorem turnPercentIntoPwm_mem (m : Motor) (p : ℚ)
    (h : m.minUsablePercent ≤ m.maxUsablePercent) (hmax : m.maxUsablePercent ≤ 100)
    (hlo : -100 ≤ p) (hhi : p ≤ 100) :
    0 ≤ m.turnPercentIntoPwm p ∧ m.turnPercentIntoPwm p ≤ 255 := by
  refine ⟨?_, turnPercentIntoPwm_le m p⟩
  by_cases hp0 : p = 0
  · rw [hp0, turnPercentIntoPwm_zero]
    norm_num
  · have hc : (0 : Int) ≤ (m.maxUsablePercent : Int) - m.minUsablePercent := by omega
    have habs : |p| ≤ 100 := abs_le.mpr ⟨hlo, hhi⟩
    have hfl : ⌊|p|⌋ ≤ 100 := by
      have h1 : ((⌊|p|⌋ : Int) : ℚ) ≤ ((100 : Int) : ℚ) := by
        have := Int.floor_le |p|
        push_cast
        linarith
      exact_mod_cast h1
    have hq : ⌊|p|⌋ * ((m.maxUsablePercent : Int) - m.minUsablePercent) / 100
        ≤ (m.maxUsablePercent : Int) - m.minUsablePercent := by
      have h1 : ⌊|p|⌋ * ((m.maxUsablePercent : Int) - m.minUsablePercent)
          ≤ 100 * ((m.maxUsablePercent : Int) - m.minUsablePercent) :=
        mul_le_mul_of_nonneg_right hfl hc
      have h2 := Int.ediv_le_ediv (by norm_num : (0 : Int) < 100) h1
      rwa [Int.mul_ediv_cancel_left _ (by norm_num : (100 : Int) ≠ 0)] at h2
    have hu : ⌊|p|⌋ * ((m.maxUsablePercent : Int) - m.minUsablePercent) / 100
        + m.minUsablePercent ≤ 100 := by omega
    have huq : ((⌊|p|⌋ * ((m.maxUsablePercent : Int) - m.minUsablePercent) / 100
        + m.minUsablePercent : Int) : ℚ) ≤ ((100 : Int) : ℚ) := by
      exact_mod_cast hu
    rw [turnPercentIntoPwm_of_ne_zero m p hp0 h]
    push_cast at huq ⊢
    linarith

/-- C11: with `0 ≤ minUsablePercent ≤ maxUsablePercent ≤ 100` and a command `p` of
`[-100, 100]`, the value `turnPercentIntoPwm p` lies in `[0, 255]`, between `FULL_ON` and
`FULL_OFF`, and so does the duty that `runMotor`, and `runDisc` through it, writes to the
PWM pin. -/
theorem C11_pwm_duty_in_range (m : Motor) (p : ℚ)
    (h : m.minUsablePercent ≤ m.maxUsablePercent) (hmax : m.maxUsablePercent ≤ 100)
    (hlo : -100 ≤ p) (hhi : p ≤ 100) :
    ((Motor.FULL_ON : ℚ) ≤ m.turnPercentIntoPwm p ∧
      m.turnPercentIntoPwm p ≤ (Motor.FULL_OFF : ℚ)) ∧
    (Motor.FULL_ON = 0 ∧ Motor.FULL_OFF = 255) ∧
    (m.runMotor p).pwmDuty = truncToLong (m.turnPercentIntoPwm p) ∧
    (0 ≤ (m.runMotor p).pwmDuty ∧ (m.runMotor p).pwmDuty ≤ 255) ∧
    ((Disc.mk m).runDisc p).motor.pwmDuty = (m.runMotor p).pwmDuty := by
  have hm := turnPercentIntoPwm_mem m p h hmax hlo hhi
  refine ⟨?_, ⟨rfl, rfl⟩, rfl, ?_, rfl⟩
  · simpa [Motor.FULL_ON, Motor.FULL_OFF] using hm
  · exact truncToLong_mem_of_mem _ hm.1 hm.2

/-- Witness of C11 on a new motor (usable range 40 to 100) with the command -100. -/
theorem C11_pwm_duty_in_range_witness :
    ((Motor.new 15 11 19).minUsablePercent ≤ (Motor.new 15 11 19).maxUsablePercent ∧
      (Motor.new 15 11 19).maxUsablePercent ≤ 100 ∧ (-100 : ℚ) ≤ -100 ∧ (-100 : ℚ) ≤ 100) ∧
    (0 ≤ ((Motor.new 15 11 19).runMotor (-100)).pwmDuty ∧
      ((Motor.new 15 11 19).runMotor (-100)).pwmDuty ≤ 255) :=
  ⟨⟨by decide, by decide, by norm_num, by norm_num⟩,
    (C11_pwm_duty_in_range (Motor.new 15 11 19) (-100) (by decide) (by decide)
      (by norm_num) (by norm_num)).2.2.2.1⟩

/-! ## Speed controller: request, target and band -/

/-- The loop condition is the negation of membership in `[target - 1000, target + 1000]`. -/
theorem outsideBand_iff (r tach : ℚ) :
    Disc.outsideBand r tach ↔
      ¬ ((Disc.desiredTachRpm r : ℚ) - 1000 ≤ tach ∧
          tach ≤ (Disc.desiredTachRpm r : ℚ) + 1000) := by
  unfold Disc.outsideBand Disc.desireMax Disc.desireMin
  push_cast
  constructor
  · rintro (h | h) ⟨h1, h2⟩ <;> linarith
  · intro h
    by_contra hc
    push_neg at hc
    exact h ⟨hc.2, hc.1⟩

/-- When the first reading is inside the band, `updateSpeed` returns without running the
loop body. -/
theorem updateSpeed_of_first_inside (d : Disc) (r : ℚ) (readings : Nat → Nat) (fuel : Nat)
    (h : ¬ Disc.outsideBand r (readings 0 : ℚ)) :
    d.updateSpeed r readings fuel = some (Disc.updateSpeedEntry d readings) := by
  have hin : ¬ Disc.outsideBand r (Disc.updateSpeedEntry d readings).tachRpm := h
  unfold Disc.updateSpeed
  simp only [updateSpeedRun_inside r readings fuel 1 _ hin, if_neg hin]

/-- When the first reading is outside the band, `updateSpeed` does not return before the
loop body has run, and its first iteration starts from the entry state with the second
reading. -/
theorem updateSpeed_of_first_outside (d : Disc) (r : ℚ) (readings : Nat → Nat)
    (h : Disc.outsideBand r (readings 0 : ℚ)) :
    d.updateSpeed r readings 0 = none ∧
    Disc.updateSpeedRun r readings 1 1 (Disc.updateSpeedEntry d readings)
      = Disc.updateSpeedBody r (readings 1) (Disc.updateSpeedEntry d readings) := by
  have hout : Disc.outsideBand r (Disc.updateSpeedEntry d readings).tachRpm := h
  constructor
  · unfold Disc.updateSpeed
    simp only [Disc.updateSpeedRun, if_pos hout]
  · rw [updateSpeedRun_outside r readings 0 1 _ hout]
    rfl

/-- C6: `updateSpeed` limits the requested rate to `[-30, 30]` and behaves as on the
limited rate.  The target is the limited rate times 1250, computed in `float` and
converted to `long`: it lies between the floor and the ceiling of the product and is the
product whenever that is a whole number, as for every whole-number request.  The band is
`[target - 1000, target + 1000]`: `updateSpeed` returns at once exactly when the first
reading is inside it, and otherwise steps by the distance from the target divided by 10000.
The rate 15 is unchanged, with target 18750 and band `[17750, 19750]`; 45 is limited to 30
(target 37500, band `[36500, 38500]`) and -45 to -30 (target -37500); the fractional
request `0.7f` has the target 875, the `float` product, and the band `[-125, 1875]`. -/
theorem C6_clamp_target_band :
    (∀ (d : Disc) (r : ℚ) (readings : Nat → Nat) (fuel : Nat),
      d.updateSpeed r readings fuel = d.updateSpeed (Disc.clampRpm r) readings fuel) ∧
    (∀ r : ℚ,
      (-30 ≤ Disc.clampRpm r ∧ Disc.clampRpm r ≤ (MAX_RPM : ℚ)) ∧
      (30 < r → Disc.clampRpm r = 30) ∧
      (r < -30 → Disc.clampRpm r = -30) ∧
      (-30 ≤ r → r ≤ 30 → Disc.clampRpm r = r) ∧
      (⌊Disc.clampRpm r * 1250⌋ ≤ Disc.desiredTachRpm r ∧
        Disc.desiredTachRpm r ≤ ⌈Disc.clampRpm r * 1250⌉) ∧
      (∀ z : Int, Disc.clampRpm r * 1250 = (z : ℚ) → Disc.desiredTachRpm r = z) ∧
      (∀ n : Int, r = (n : ℚ) → Disc.desiredTachRpm r = max (-30) (min 30 n) * 1250) ∧
      Disc.desireMin r = Disc.desiredTachRpm r - 1000 ∧
      Disc.desireMax r = Disc.desiredTachRpm r + 1000 ∧
      (∀ tach : ℚ, Disc.outsideBand r tach ↔
        ¬ ((Disc.desiredTachRpm r : ℚ) - 1000 ≤ tach ∧
            tach ≤ (Disc.desiredTachRpm r : ℚ) + 1000))) ∧
    (∀ (d : Disc) (r : ℚ) (readings : Nat → Nat),
      (((Disc.desiredTachRpm r : ℚ) - 1000 ≤ (readings 0 : ℚ) ∧
          (readings 0 : ℚ) ≤ (Disc.desiredTachRpm r : ℚ) + 1000) →
        ∀ fuel : Nat,
          d.updateSpeed r readings fuel = some (Disc.updateSpeedEntry d readings)) ∧
      (¬ ((Disc.desiredTachRpm r : ℚ) - 1000 ≤ (readings 0 : ℚ) ∧
          (readings 0 : ℚ) ≤ (Disc.desiredTachRpm r : ℚ) + 1000) →
        d.updateSpeed r readings 0 = none ∧
        (Disc.signedReading d.motor (readings 1) < (Disc.desiredTachRpm r : ℚ) →
          (Disc.updateSpeedRun r readings 1 1 (Disc.updateSpeedEntry d readings)).calls
            = [Disc.ActuatorCall.increasePercentage
                (((Disc.desiredTachRpm r : ℚ) - Disc.signedReading d.motor (readings 1))
                  / 10000)]) ∧
        ((Disc.desiredTachRpm r : ℚ) < Disc.signedReading d.motor (readings 1) →
          (Disc.updateSpeedRun r readings 1 1 (Disc.updateSpeedEntry d readings)).calls
            = [Disc.ActuatorCall.decreasePercentage
                ((Disc.signedReading d.motor (readings 1) - (Disc.desiredTachRpm r : ℚ))
                  / 10000)]))) ∧
    (Disc.clampRpm 15 = 15 ∧ Disc.desiredTachRpm 15 = 18750 ∧
      Disc.desireMin 15 = 17750 ∧ Disc.desireMax 15 = 19750 ∧
      (∀ d : Disc, d.updateSpeed 15 (fun _ => 17750) 5
        = some (Disc.updateSpeedEntry d (fun _ => 17750))) ∧
      (∀ d : Disc, d.updateSpeed 15 (fun _ => 17749) 0 = none) ∧
      (∀ d : Disc, d.updateSpeed 15 (fun _ => 19750) 5
        = some (Disc.updateSpeedEntry d (fun _ => 19750))) ∧
      (∀ d : Disc, d.updateSpeed 15 (fun _ => 19751) 0 = none) ∧
      (∀ d : Disc,
        (Disc.updateSpeedRun 15 (fun _ => 0) 1 1 (Disc.updateSpeedEntry d (fun _ => 0))).calls
          = [Disc.ActuatorCall.increasePercentage (15 / 8)])) ∧
    (Disc.clampRpm 45 = 30 ∧ Disc.desiredTachRpm 45 = 37500 ∧
      Disc.desiredTachRpm 45 = Disc.desiredTachRpm 30 ∧
      (∀ d : Disc, d.updateSpeed 45 (fun _ => 38500) 5
        = some (Disc.updateSpeedEntry d (fun _ => 38500))) ∧
      (∀ d : Disc, d.updateSpeed 45 (fun _ => 38501) 0 = none) ∧
      (∀ d : Disc, d.updateSpeed 45 (fun _ => 36500) 5
        = some (Disc.updateSpeedEntry d (fun _ => 36500))) ∧
      (∀ d : Disc, d.updateSpeed 45 (fun _ => 36499) 0 = none) ∧
      (∀ d : Disc,
        (Disc.updateSpeedRun 45 (fun _ => 0) 1 1 (Disc.updateSpeedEntry d (fun _ => 0))).calls
          = [Disc.ActuatorCall.increasePercentage (15 / 4)])) ∧
    (Disc.clampRpm (-45) = -30 ∧ Disc.desiredTachRpm (-45) = -37500 ∧
      (∀ d : Disc,
        (Disc.updateSpeedRun (-45) (fun _ => 0) 1 1
            (Disc.updateSpeedEntry d (fun _ => 0))).calls
          = [Disc.ActuatorCall.decreasePercentage (15 / 4)])) ∧
    (Disc.desiredTachRpm (11744051 / 16777216) = 875 ∧
      (∀ d : Disc, d.updateSpeed (11744051 / 16777216) (fun _ => 1875) 5
        = some (Disc.updateSpeedEntry d (fun _ => 1875)))) := by
  have hz : ∀ (r : ℚ) (z : Int), Disc.clampRpm r * 1250 = (z : ℚ) →
      Disc.desiredTachRpm r = z := desiredTachRpm_eq_of_whole
  have c15 : Disc.clampRpm 15 = 15 := by norm_num [Disc.clampRpm]
  have c30 : Disc.clampRpm 30 = 30 := by norm_num [Disc.clampRpm]
  have c45 : Disc.clampRpm 45 = 30 := by norm_num [Disc.clampRpm, MAX_RPM]
  have c45n : Disc.clampRpm (-45) = -30 := by norm_num [Disc.clampRpm, MAX_RPM]
  have t15 : Disc.desiredTachRpm 15 = 18750 := hz 15 18750 (by rw [c15]; norm_num)
  have t30 : Disc.desiredTachRpm 30 = 37500 := hz 30 37500 (by rw [c30]; norm_num)
  have t45 : Disc.desiredTachRpm 45 = 37500 := hz 45 37500 (by rw [c45]; norm_num)
  have t45n : Disc.desiredTachRpm (-45) = -37500 := hz (-45) (-37500) (by rw [c45n]; norm_num)
  have hgen : ∀ (d : Disc) (r : ℚ) (readings : Nat → Nat),
      (((Disc.desiredTachRpm r : ℚ) - 1000 ≤ (readings 0 : ℚ) ∧
          (readings 0 : ℚ) ≤ (Disc.desiredTachRpm r : ℚ) + 1000) →
        ∀ fuel : Nat,
          d.updateSpeed r readings fuel = some (Disc.updateSpeedEntry d readings)) ∧
      (¬ ((Disc.desiredTachRpm r : ℚ) - 1000 ≤ (readings 0 : ℚ) ∧
          (readings 0 : ℚ) ≤ (Disc.desiredTachRpm r : ℚ) + 1000) →
        d.updateSpeed r readings 0 = none ∧
        (Disc.signedReading d.motor (readings 1) < (Disc.desiredTachRpm r : ℚ) →
          (Disc.updateSpeedRun r readings 1 1 (Disc.updateSpeedEntry d readings)).calls
            = [Disc.ActuatorCall.increasePercentage
                (((Disc.desiredTachRpm r : ℚ) - Disc.signedReading d.motor (readings 1))
                  / 10000)]) ∧
        ((Disc.desiredTachRpm r : ℚ) < Disc.signedReading d.motor (readings 1) →
          (Disc.updateSpeedRun r readings 1 1 (Disc.updateSpeedEntry d readings)).calls
            = [Disc.ActuatorCall.decreasePercentage
                ((Disc.signedReading d.motor (readings 1) - (Disc.desiredTachRpm r : ℚ))
                  / 10000)])) := by
    intro d r readings
    constructor
    · intro h fuel
      exact updateSpeed_of_first_inside d r readings fuel
        (fun ho => ((outsideBand_iff r _).mp ho) h)
    · intro h
      have ho := updateSpeed_of_first_outside d r readings ((outsideBand_iff r _).mpr h)
      have hb := updateSpeedBody_cases r (readings 1) (Disc.updateSpeedEntry d readings)
      refine ⟨ho.1, ?_, ?_⟩
      · intro hs
        rw [ho.2]
        exact (hb.2.1 hs).2
      · intro hs
        rw [ho.2]
        exact (hb.2.2.1 hs).2
  have t07 : Disc.desiredTachRpm (11744051 / 16777216) = 875 :=
    desiredTachRpm_seven_tenths.2.2
  refine ⟨?_, ?_, hgen, ⟨c15, t15, ?_, ?_, ?_, ?_, ?_, ?_, ?_⟩,
    ⟨c45, t45, by rw [t45, t30], ?_, ?_, ?_, ?_, ?_⟩, ⟨c45n, t45n, ?_⟩, ⟨t07, ?_⟩⟩
  · intro d r readings fuel
    have hb : ∀ x, Disc.outsideBand (Disc.clampRpm r) x = Disc.outsideBand r x := by
      intro x
      unfold Disc.outsideBand Disc.desireMax Disc.desireMin Disc.desiredTachRpm
      rw [clampRpm_idem]
    unfold Disc.updateSpeed
    simp only [updateSpeedRun_clamp, hb]
  · intro r
    refine ⟨?_, ?_, ?_, ?_, desiredTachRpm_mem r, hz r,
      fun n hn => by rw [hn]; exact desiredTachRpm_intCast n, rfl, rfl, outsideBand_iff r⟩
    · simpa [MAX_RPM] using clampRpm_mem r
    · intro h
      norm_num [Disc.clampRpm, MAX_RPM, h]
    · intro h
      have h2 : ¬ (30 < r) := by linarith
      norm_num [Disc.clampRpm, MAX_RPM, h, h2]
    · intro h1 h2
      unfold Disc.clampRpm
      rw [if_neg (by linarith), if_neg (by linarith)]
  · unfold Disc.desireMin
    rw [t15]
    norm_num
  · unfold Disc.desireMax
    rw [t15]
    norm_num
  · intro d
    exact (hgen d 15 (fun _ => 17750)).1 (by rw [t15]; norm_num) 5
  · intro d
    exact ((hgen d 15 (fun _ => 17749)).2 (by rw [t15]; norm_num)).1
  · intro d
    exact (hgen d 15 (fun _ => 19750)).1 (by rw [t15]; norm_num) 5
  · intro d
    exact ((hgen d 15 (fun _ => 19751)).2 (by rw [t15]; norm_num)).1
  · intro d
    have h := ((hgen d 15 (fun _ => 0)).2 (by rw [t15]; norm_num)).2.1
      (by rw [signedReading_zero, t15]; norm_num)
    rw [h, signedReading_zero, t15]
    norm_num
  · intro d
    exact (hgen d 45 (fun _ => 38500)).1 (by rw [t45]; norm_num) 5
  · intro d
    exact ((hgen d 45 (fun _ => 38501)).2 (by rw [t45]; norm_num)).1
  · intro d
    exact (hgen d 45 (fun _ => 36500)).1 (by rw [t45]; norm_num) 5
  · intro d
    exact ((hgen d 45 (fun _ => 36499)).2 (by rw [t45]; norm_num)).1
  · intro d
    have h := ((hgen d 45 (fun _ => 0)).2 (by rw [t45]; norm_num)).2.1
      (by rw [signedReading_zero, t45]; norm_num)
    rw [h, signedReading_zero, t45]
    norm_num
  · intro d
    have h := ((hgen d (-45) (fun _ => 0)).2 (by rw [t45n]; norm_num)).2.2
      (by rw [signedReading_zero, t45n]; norm_num)
    rw [h, signedReading_zero, t45n]
    norm_num
  · intro d
    exact (hgen d (11744051 / 16777216) (fun _ => 1875)).1 (by rw [t07]; norm_num) 5

end KineticSculpture
